import Mathlib

/-!
Kratos matrix bindings (`kratos/python/add_matrix_to_python.cpp`)

A shallow embedding of the bound lambdas of `CreateMatrixInterface` and
`AddMatrixToPython`, and the properties of them that the specification states.

Conventions of the embedding:

* the element type (`double`, `std::complex<double>`) is a parameter `α`; every
  theorem holds for any element type, so none depends on floating-point
  arithmetic;
* `size_type` values are natural numbers; `int` and `ssize_t` values are
  integers; a conversion between them, and `size_type` arithmetic, is taken
  modulo `2^64`; the overflow of an `int` loop counter, which is undefined
  behaviour in the source, is the failure `intOverflow`;
* a C++ exception is an `Except.error`; a lambda that mutates `self` returns the
  new value of `self`;
* the template `CreateMatrixInterface<TMatrixType>` is embedded once, over the
  operations it uses of `TMatrixType`, and instantiated at the dense and at the
  compressed matrix, each over any element type: these are the four bound
  classes `Matrix`, `ComplexMatrix`, `CompressedMatrix` and
  `ComplexCompressedMatrix`;
* the `#else` branch of `KRATOS_USE_AMATRIX` (the ublas build) is the one
  embedded.
-/

namespace Kratos

/-! Failure conditions -/

/-- The exceptions the bound lambdas can raise. The first five are the
`KRATOS_ERROR` / `KRATOS_ERROR_IF` sites of the file, with the values their
messages print; `badIndex` and `badSize` are the index and size checks of the
matrix class; `castError` is a failed `py::cast` or `py::len`;
`invalidRead` is a read past the end of the memory behind a buffer;
`intOverflow` is the overflow of an `int` loop counter. -/
inductive Error where
  | expectedDoubleArray
  | expectedDoubleOrComplexArray
  | bufferDimension (ndim : Int)
  | wrongRowSize (row expected got : Nat)
  | size2IsNot3
  | badIndex
  | badSize
  | castError
  | invalidRead
  | intOverflow
deriving DecidableEq, Repr

/-- The error taxonomy of the specification. -/
inductive Condition where
  | FormatMismatch
  | ShapeMismatch
  | OutOfRange
  | Other
deriving DecidableEq, Repr

/-- The condition each exception belongs to. -/
def Error.condition : Error → Condition
  | .expectedDoubleArray => .FormatMismatch
  | .expectedDoubleOrComplexArray => .FormatMismatch
  | .bufferDimension _ => .FormatMismatch
  | .wrongRowSize _ _ _ => .ShapeMismatch
  | .size2IsNot3 => .ShapeMismatch
  | .badSize => .ShapeMismatch
  | .badIndex => .OutOfRange
  | .castError => .Other
  | .invalidRead => .Other
  | .intOverflow => .Other

/-- Equality of results is decidable, so closed instances of the theorems below
can be evaluated. -/
instance instDecidableEqExcept {ε α : Type} [DecidableEq ε] [DecidableEq α] :
    DecidableEq (Except ε α)
  | .ok a, .ok b => if h : a = b then isTrue (by rw [h]) else isFalse (fun h2 => h (Except.ok.inj h2))
  | .error a, .error b =>
      if h : a = b then isTrue (by rw [h]) else isFalse (fun h2 => h (Except.error.inj h2))
  | .ok _, .error _ => isFalse (fun h => Except.noConfusion h)
  | .error _, .ok _ => isFalse (fun h => Except.noConfusion h)

/-! Machine integers and loops -/

/-- The conversion of a signed integer (`int`, `ssize_t`) to `size_type`: the
value modulo `2^64`. -/
def toSizeType (k : Int) : Nat := (k % 2 ^ 64).toNat

/-- The conversion of a `size_type` value to `ssize_t`: the value modulo `2^64`,
read as a signed 64-bit integer. -/
def toSSize (n : Nat) : Int :=
  if n % 2 ^ 64 < 2 ^ 63 then ((n % 2 ^ 64 : Nat) : Int) else ((n % 2 ^ 64 : Nat) : Int) - 2 ^ 64

/-- The values an `int` holds. -/
def IsInt (k : Int) : Prop := -2 ^ 31 ≤ k ∧ k < 2 ^ 31

instance (k : Int) : Decidable (IsInt k) := by unfold IsInt; infer_instance

/-- The values an `ssize_t` holds. -/
def IsSSize (k : Int) : Prop := -2 ^ 63 ≤ k ∧ k < 2 ^ 63

instance (k : Int) : Decidable (IsSSize k) := by unfold IsSSize; infer_instance

/-- The loop `for (std::size_t k = 0; k < n; ++k) body(k)` over a state,
stopping at the first exception. -/
def forLoop {ε σ : Type} (n : Nat) (body : Nat → σ → Except ε σ) (s : σ) : Except ε σ :=
  (List.range n).foldlM (fun st k => body k st) s

/-- One turn of a loop with an `int` counter: `body(k)`, then `++k`, which
overflows when `k` is `INT_MAX`. -/
def intStep {σ : Type} (body : Nat → σ → Except Error σ) (k : Nat) (st : σ) :
    Except Error σ :=
  match body k st with
  | .ok st' => if k + 1 < 2 ^ 31 then .ok st' else .error .intOverflow
  | .error e => .error e

/-- The loop `for (int k = 0; k < bound; ++k) body(k)` with an `ssize_t` bound:
`body(k)` runs for `k = 0, 1, ...` below `bound`, and the increment that follows
`body(INT_MAX)` overflows the counter. -/
def intLoop {σ : Type} (bound : Int) (body : Nat → σ → Except Error σ) (s : σ) :
    Except Error σ :=
  forLoop bound.toNat (fun k st => intStep body k st) s

/-! Dense matrices -/

/-- Modelled from the spec: a dense matrix, with its row count `size1`, its
column count `size2` and its contiguous row-major value buffer `data()` of
`size1 * size2` elements (the class `DenseMatrix<T>` is declared in
`includes/ublas_interface.h`, which is not among the sources). -/
structure DenseMatrix (α : Type) where
  size1 : Nat
  size2 : Nat
  data : List α
  data_size : data.length = size1 * size2

namespace DenseMatrix

variable {α : Type}

/-- Two matrices are equal when their sizes and their storage are. -/
instance instDecidableEq [DecidableEq α] : DecidableEq (DenseMatrix α)
  | ⟨a1, a2, ad, _⟩, ⟨b1, b2, bd, _⟩ =>
    if h : a1 = b1 ∧ a2 = b2 ∧ ad = bd then
      isTrue (by obtain ⟨h1, h2, h3⟩ := h; subst h1 h2 h3; rfl)
    else
      isFalse (fun heq => h (by cases heq; exact ⟨rfl, rfl, rfl⟩))

/-- Modelled from the spec: the shape constructor `DenseMatrix<T>(size1, size2)`
of the matrix class, which allocates `size1 × size2` storage without
initialising it; `junk k` is what cell `k` of the fresh storage happens to
hold. -/
def create (size1 size2 : Nat) (junk : Nat → α) : DenseMatrix α where
  size1 := size1
  size2 := size2
  data := (List.range (size1 * size2)).map junk
  data_size := by simp

/-- Modelled from the spec: the element read `self(i, j)` of the matrix class,
with `size_type` indices: the element at row-major offset `i * size2 + j`;
indices outside `[0, size1) × [0, size2)` are an OutOfRange failure. -/
def elem (self : DenseMatrix α) (i j : Nat) : Except Error α :=
  if i < self.size1 ∧ j < self.size2 then
    match self.data[i * self.size2 + j]? with
    | some x => .ok x
    | none => .error .badIndex
  else .error .badIndex

/-- Modelled from the spec: the element write `self(i, j) = value` of the matrix
class, with the same range contract as the read `elem`. -/
def assign (self : DenseMatrix α) (i j : Nat) (value : α) : Except Error (DenseMatrix α) :=
  if i < self.size1 ∧ j < self.size2 then
    .ok { self with
          data := self.data.set (i * self.size2 + j) value
          data_size := by simp [self.data_size] }
  else .error .badIndex

/-- Modelled from the spec: `self.resize(size1, size2, false)` of the matrix
class (not among the sources): the storage is reallocated to the new shape and
the prior contents are discarded; `junk` is what the fresh storage holds. -/
def resize (_self : DenseMatrix α) (size1 size2 : Nat) (junk : Nat → α) : DenseMatrix α :=
  create size1 size2 junk

/-- Modelled from the spec: the sum `m1 + m2` of the matrix class (not among the
sources), evaluated into a matrix: elementwise, and a ShapeMismatch failure
unless both operands have the same shape. -/
def plus [Add α] (m1 m2 : DenseMatrix α) : Except Error (DenseMatrix α) :=
  if h : m1.size1 = m2.size1 ∧ m1.size2 = m2.size2 then
    .ok { size1 := m1.size1
          size2 := m1.size2
          data := List.zipWith (fun a b => a + b) m1.data m2.data
          data_size := by
            simp [m1.data_size, m2.data_size, h.1, h.2] }
  else .error .badSize

/-- Modelled from the spec: the difference `m1 - m2` of the matrix class (not
among the sources), evaluated into a matrix: elementwise, and a ShapeMismatch
failure unless both operands have the same shape. -/
def minus [Sub α] (m1 m2 : DenseMatrix α) : Except Error (DenseMatrix α) :=
  if h : m1.size1 = m2.size1 ∧ m1.size2 = m2.size2 then
    .ok { size1 := m1.size1
          size2 := m1.size2
          data := List.zipWith (fun a b => a - b) m1.data m2.data
          data_size := by
            simp [m1.data_size, m2.data_size, h.1, h.2] }
  else .error .badSize

/-- Modelled from the spec: `prod(m, v)` of the matrix class (not among the
sources), the standard matrix-vector product evaluated into a vector: entry `i`
accumulates `m(i, j) * v(j)` over the columns `j`, starting from zero. -/
def prod [Zero α] [Add α] [Mul α] (m : DenseMatrix α) (v : List α) :
    Except Error (List α) :=
  if m.size2 ≠ v.length then .error .badSize
  else
    (List.range m.size1).mapM (fun i =>
      forLoop m.size2 (fun j t => do
        let a ← m.elem i j
        match v[j]? with
        | some x => pure (t + a * x)
        | none => throw Error.badIndex) 0)

/-- Modelled from the spec: `IdentityMatrix(n)` (declared in
`includes/ublas_interface.h`, not among the sources), the `n × n` matrix with
one on the diagonal and zero elsewhere. -/
def IdentityMatrix [Zero α] [One α] (n : Nat) : DenseMatrix α where
  size1 := n
  size2 := n
  data := (List.range (n * n)).map (fun k => if k / n = k % n then 1 else 0)
  data_size := by simp

/-- Modelled from the spec: the assignment `noalias(self) = e` of the matrix
class (not among the sources): the contents of `self` are overwritten with
those of `e`, which must have the shape of `self`. -/
def noaliasAssign (self e : DenseMatrix α) : Except Error (DenseMatrix α) :=
  if h : self.size1 = e.size1 ∧ self.size2 = e.size2 then
    .ok { self with
          data := e.data
          data_size := by rw [e.data_size, h.1, h.2] }
  else .error .badSize

end DenseMatrix

/-! Compressed matrices -/

/-- Modelled from the spec: a sparse matrix in compressed-row storage, with its
row count `size1`, its column count `size2`, the row pointers `index1_data`
(`size1 + 1` of them), the column indices `index2_data` and the values
`value_data`, the last two parallel (the class `CompressedMatrix` is declared in
`includes/ublas_interface.h`, which is not among the sources). -/
structure CompressedMatrix (α : Type) where
  size1 : Nat
  size2 : Nat
  index1_data : List Nat
  index2_data : List Nat
  value_data : List α
  index1_size : index1_data.length = size1 + 1
  index2_size : index2_data.length = value_data.length

namespace CompressedMatrix

variable {α : Type}

/-- Modelled from the spec: the shape constructor `CompressedMatrix(size1, size2)`,
an empty compressed-row structure with zero nonzeros. -/
def create (size1 size2 : Nat) : CompressedMatrix α where
  size1 := size1
  size2 := size2
  index1_data := List.replicate (size1 + 1) 0
  index2_data := []
  value_data := []
  index1_size := by simp
  index2_size := rfl

/-- Where the stored entries of row `i` begin. -/
def rowBegin (self : CompressedMatrix α) (i : Nat) : Nat := self.index1_data.getD i 0

/-- Where the stored entries of row `i` end. -/
def rowEnd (self : CompressedMatrix α) (i : Nat) : Nat := self.index1_data.getD (i + 1) 0

/-- The place in `index2_data` / `value_data` of the stored entry `(i, j)`, if
there is one: the first place of row `i` whose column index is `j`. -/
def position (self : CompressedMatrix α) (i j : Nat) : Option Nat :=
  (List.range' (self.rowBegin i) (self.rowEnd i - self.rowBegin i)).find?
    (fun k => self.index2_data[k]? == some j)

/-- The value at `(i, j)`: the stored one, or zero when none is stored. -/
def lookup [Zero α] (self : CompressedMatrix α) (i j : Nat) : α :=
  match self.position i j with
  | some k => self.value_data.getD k 0
  | none => 0

/-- Modelled from the spec: the element read `self(i, j)` of the compressed
matrix class, with `size_type` indices; indices outside
`[0, size1) × [0, size2)` are an OutOfRange failure. -/
def elem [Zero α] (self : CompressedMatrix α) (i j : Nat) : Except Error α :=
  if i < self.size1 ∧ j < self.size2 then .ok (self.lookup i j)
  else .error .badIndex

/-- The place where a new entry `(i, j)` goes: before the first stored entry of
row `i` with a larger column index, or at the end of the row. -/
def insertAt (self : CompressedMatrix α) (i j : Nat) : Nat :=
  ((List.range' (self.rowBegin i) (self.rowEnd i - self.rowBegin i)).find?
    (fun k => decide (j < self.index2_data.getD k 0))).getD (self.rowEnd i)

/-- Modelled from the spec: the element write `self(i, j) = value` of the
compressed matrix class, with the range contract of the read: the stored entry
is overwritten, or a new one is stored and the row pointers after row `i` move
up by one. -/
def assign (self : CompressedMatrix α) (i j : Nat) (value : α) :
    Except Error (CompressedMatrix α) :=
  if i < self.size1 ∧ j < self.size2 then
    match self.position i j with
    | some k =>
      .ok { self with
            value_data := self.value_data.set k value
            index2_size := by simp [self.index2_size] }
    | none =>
      .ok { self with
            index1_data :=
              List.zipWith (fun t p => if i < t then p + 1 else p)
                (List.range self.index1_data.length) self.index1_data
            index2_data :=
              self.index2_data.take (self.insertAt i j) ++
                j :: self.index2_data.drop (self.insertAt i j)
            value_data :=
              self.value_data.take (self.insertAt i j) ++
                value :: self.value_data.drop (self.insertAt i j)
            index1_size := by simp [self.index1_size]
            index2_size := by simp [self.index2_size] }
  else .error .badIndex

/-- Modelled from the spec: `self.resize(size1, size2, false)` of the compressed
matrix class: the storage is reallocated to the new shape and the prior
contents are discarded. -/
def resize (_self : CompressedMatrix α) (size1 size2 : Nat) : CompressedMatrix α :=
  create size1 size2

/-- The compressed matrix of shape `size1 × size2` that stores `f i j` at every
coordinate `(i, j)`. -/
def ofFn (size1 size2 : Nat) (f : Nat → Nat → α) : CompressedMatrix α where
  size1 := size1
  size2 := size2
  index1_data := (List.range (size1 + 1)).map (fun i => i * size2)
  index2_data := (List.range (size1 * size2)).map (fun k => k % size2)
  value_data := (List.range (size1 * size2)).map (fun k => f (k / size2) (k % size2))
  index1_size := by simp
  index2_size := by simp

/-- Modelled from the spec: the sum `m1 + m2` of the compressed matrix class,
evaluated into a matrix: elementwise, and a ShapeMismatch failure unless both
operands have the same shape. -/
def plus [Zero α] [Add α] (m1 m2 : CompressedMatrix α) : Except Error (CompressedMatrix α) :=
  if m1.size1 = m2.size1 ∧ m1.size2 = m2.size2 then
    .ok (ofFn m1.size1 m1.size2 (fun i j => m1.lookup i j + m2.lookup i j))
  else .error .badSize

/-- Modelled from the spec: the difference `m1 - m2` of the compressed matrix
class, evaluated into a matrix: elementwise, and a ShapeMismatch failure unless
both operands have the same shape. -/
def minus [Zero α] [Sub α] (m1 m2 : CompressedMatrix α) : Except Error (CompressedMatrix α) :=
  if m1.size1 = m2.size1 ∧ m1.size2 = m2.size2 then
    .ok (ofFn m1.size1 m1.size2 (fun i j => m1.lookup i j - m2.lookup i j))
  else .error .badSize

end CompressedMatrix

/-! `CreateMatrixInterface` -/

/-- What `CreateMatrixInterface` uses of `TMatrixType` for the sizes:
`size1()` and `size2()`. -/
class MatrixShape (M : Type) where
  size1 : M → Nat
  size2 : M → Nat

/-- What `CreateMatrixInterface` uses of `TMatrixType` for the resize:
`resize(size1, size2, false)`; `junk` is what fresh dense storage holds. -/
class MatrixResize (M : Type) (α : outParam Type) where
  resize : M → Nat → Nat → (Nat → α) → M

/-- What `CreateMatrixInterface` uses of `TMatrixType` for the element access:
the read `self(i, j)` and the write `self(i, j) = value`. -/
class MatrixAccess (M : Type) (α : outParam Type) where
  elem : M → Nat → Nat → Except Error α
  assign : M → Nat → Nat → α → Except Error M

/-- What `CreateMatrixInterface` uses of `TMatrixType` for the sum and the
difference: `m1 + m2` and `m1 - m2`, evaluated into a `TMatrixType`. -/
class MatrixSum (M : Type) where
  plus : M → M → Except Error M
  minus : M → M → Except Error M

section Instances

variable {α : Type}

instance instShapeDense : MatrixShape (DenseMatrix α) := ⟨DenseMatrix.size1, DenseMatrix.size2⟩

instance instResizeDense : MatrixResize (DenseMatrix α) α := ⟨DenseMatrix.resize⟩

instance instAccessDense : MatrixAccess (DenseMatrix α) α :=
  ⟨DenseMatrix.elem, DenseMatrix.assign⟩

instance instSumDense [Add α] [Sub α] : MatrixSum (DenseMatrix α) :=
  ⟨DenseMatrix.plus, DenseMatrix.minus⟩

instance instShapeCompressed : MatrixShape (CompressedMatrix α) :=
  ⟨CompressedMatrix.size1, CompressedMatrix.size2⟩

instance instResizeCompressed : MatrixResize (CompressedMatrix α) α :=
  ⟨fun self size1 size2 _ => self.resize size1 size2⟩

instance instAccessCompressed [Zero α] : MatrixAccess (CompressedMatrix α) α :=
  ⟨CompressedMatrix.elem, CompressedMatrix.assign⟩

instance instSumCompressed [Zero α] [Add α] [Sub α] : MatrixSum (CompressedMatrix α) :=
  ⟨CompressedMatrix.plus, CompressedMatrix.minus⟩

end Instances

section Interface

variable {M α : Type}

/-- Binding `Size1`. -/
def Size1 [MatrixShape M] (self : M) : Nat := MatrixShape.size1 self

/-- Binding `Size2`. -/
def Size2 [MatrixShape M] (self : M) : Nat := MatrixShape.size2 self

/-- Binding `Resize`: `resize` is called only when the requested shape differs
from the current one. Returns `self` after the call. -/
def Resize [MatrixShape M] [MatrixResize M α] (self : M) (new_size1 new_size2 : Nat)
    (junk : Nat → α) : M :=
  if MatrixShape.size1 self ≠ new_size1 ∨ MatrixShape.size2 self ≠ new_size2 then
    MatrixResize.resize self new_size1 new_size2 junk
  else self

/-- Binding `__setitem__`: `self(index_i, index_j) = value`. Returns `self`
after the call together with the outcome of the call. -/
def setitem [MatrixAccess M α] (self : M) (index : Int × Int) (value : α) :
    M × Except Error Unit :=
  let index_i := index.1
  let index_j := index.2
  match MatrixAccess.assign self (toSizeType index_i) (toSizeType index_j) value with
  | .ok updated => (updated, .ok ())
  | .error e => (self, .error e)

/-- Binding `__getitem__`: `return self(index_i, index_j)`. -/
def getitem [MatrixAccess M α] (self : M) (index : Int × Int) : Except Error α :=
  let index_i := index.1
  let index_j := index.2
  MatrixAccess.elem self (toSizeType index_i) (toSizeType index_j)

/-- Binding `__add__`: `TMatrixType(m1 + m2)`. -/
def add [MatrixSum M] (m1 m2 : M) : Except Error M := MatrixSum.plus m1 m2

/-- Binding `__sub__`: `TMatrixType(m1 - m2)`. -/
def sub [MatrixSum M] (m1 m2 : M) : Except Error M := MatrixSum.minus m1 m2

end Interface

/-! Python objects and buffers -/

/-- A Python object, as far as `py::len` and `py::cast` tell objects apart: a
number `x` (what `py::cast<double>` returns for it), a list (or a sequence that
`py::cast<py::list>` converts to a list) with its items, or any other object. -/
inductive PyObject (α : Type) where
  | float (x : α)
  | list (items : List (PyObject α))
  | other

section Python

variable {α : Type}

/-- The call `py::len(o)`. -/
def pyLen : PyObject α → Except Error Nat
  | .list items => .ok items.length
  | _ => .error .castError

/-- The call `py::cast<py::list>(o)`. -/
def castList : PyObject α → Except Error (List (PyObject α))
  | .list items => .ok items
  | _ => .error .castError

/-- The call `py::cast<double>(o)`. -/
def castDouble : PyObject α → Except Error α
  | .float x => .ok x
  | _ => .error .castError

/-- The item `xs[i]` of a Python list. -/
def pyItem (xs : List (PyObject α)) (i : Nat) : Except Error (PyObject α) :=
  match xs[i]? with
  | some o => .ok o
  | none => .error .badIndex

/-- A nested sequence of numbers as a Python list of lists of floats. -/
def nested (rows : List (List α)) : List (PyObject α) :=
  rows.map (fun row => PyObject.list (row.map PyObject.float))

/-- The `py::buffer_info` a `b.request()` returns. `ptr` is the memory behind
the buffer read as consecutive `double`s from the start of the buffer;
`itemsize`, `ndim` and the entries of `shape` and `strides` are `ssize_t`
values. -/
structure BufferInfo (α : Type) where
  ptr : List α
  itemsize : Int
  format : String
  ndim : Int
  shape : List Int
  strides : List Int
  shape_range : ∀ k, k ∈ shape → IsSSize k
  strides_range : ∀ k, k ∈ strides → IsSSize k

/-- A `std::complex<T>`. -/
structure StdComplex (α : Type) where
  re : α
  im : α
deriving DecidableEq, Repr

/-- The value `sizeof(double)`. -/
def sizeofDouble : Nat := 8

/-- The value `py::format_descriptor<double>::value`. -/
def formatDouble : String := "d"

/-- The value `py::format_descriptor<std::complex<double>>::value`. -/
def formatComplex : String := "Zd"

/-- The read `static_cast<double *>(info.ptr)[count]`. -/
def readDouble (ptr : List α) (count : Nat) : Except Error α :=
  match ptr[count]? with
  | some x => .ok x
  | none => .error .invalidRead

/-- The read `static_cast<std::complex<double> *>(info.ptr)[count]`: a complex
number occupies two consecutive `double`s, real part first. -/
def readComplex (ptr : List α) (count : Nat) : Except Error (StdComplex α) :=
  match ptr[2 * count]?, ptr[2 * count + 1]? with
  | some re, some im => .ok ⟨re, im⟩
  | _, _ => .error .invalidRead

/-- The value `std::complex<double>(static_cast<double *>(info.ptr)[count], 0.0)`. -/
def readPromoted [Zero α] (ptr : List α) (count : Nat) : Except Error (StdComplex α) := do
  let value ← readDouble ptr count
  pure (StdComplex.mk value 0)

end Python

/-! `AddMatrixToPython`: the dense real matrix -/

section Matrix

variable {α : Type}

/-- The body of the copy loops of the buffer constructors: cell `(i, j)` of the
matrix receives the value read at `count`, and `count`, a `std::size_t`,
advances by one. The state is the pair of `matrix` and `count`. -/
def copyCell {β : Type} (read : Nat → Except Error β) (i j : Nat)
    (st : DenseMatrix β × Nat) : Except Error (DenseMatrix β × Nat) := do
  let value ← read st.2
  let updated ← st.1.assign i j value
  pure (updated, (st.2 + 1) % 2 ^ 64)

/-- The two nested loops of the buffer constructors,
`for( int i=0; i<info.shape[0]; ++i )` over the rows and
`for( int j=0; j<info.shape[1]; ++j )` over the columns, starting with
`count = 0`. -/
def copyLoop {β : Type} (read : Nat → Except Error β) (shape0 shape1 : Int)
    (matrix : DenseMatrix β) : Except Error (DenseMatrix β × Nat) :=
  intLoop shape0 (fun i st => intLoop shape1 (fun j st => copyCell read i j st) st) (matrix, 0)

/-- The invariant of the copy loops: `matrix` has shape `r × c` and each of its
first `count` cells, in row-major order, holds the value read at its offset. -/
def Copied {β : Type} (read : Nat → Except Error β) (r c count : Nat)
    (matrix : DenseMatrix β) : Prop :=
  matrix.size1 = r ∧ matrix.size2 = c ∧
    ∀ k, k < count → ∃ x, read k = .ok x ∧ matrix.data[k]? = some x

/-- The constructor of `Matrix` from a `py::buffer`. The matrix is built with
`info.shape[0]` and `info.shape[1]` converted to `size_type`. -/
def matrixFromBuffer (junk : Nat → α) (b : BufferInfo α) : Except Error (DenseMatrix α) := do
  let info := b
  if info.format ≠ formatDouble then throw Error.expectedDoubleArray
  if info.ndim ≠ 2 then throw (Error.bufferDimension info.ndim)
  let matrix := DenseMatrix.create (toSizeType (info.shape.getD 0 0))
    (toSizeType (info.shape.getD 1 0)) junk
  let st ← copyLoop (readDouble info.ptr) (info.shape.getD 0 0) (info.shape.getD 1 0) matrix
  pure st.1

/-- The body of the inner loop of the list constructor:
`matrix(i, j) = py::cast<double>(row[j])`. -/
def listEntry (row : List (PyObject α)) (i j : Nat) (matrix : DenseMatrix α) :
    Except Error (DenseMatrix α) := do
  let entry ← pyItem row j
  let value ← castDouble entry
  matrix.assign i j value

/-- The body of the outer loop of the list constructor: row `i` is cast to a
list, its length is checked against `num_cols`, and its entries are copied. -/
def listRow (input : List (PyObject α)) (num_cols i : Nat) (matrix : DenseMatrix α) :
    Except Error (DenseMatrix α) := do
  let item ← pyItem input i
  let row ← castList item
  if row.length ≠ num_cols then throw (Error.wrongRowSize i num_cols row.length)
  forLoop num_cols (fun j matrix => listEntry row i j matrix) matrix

/-- The constructor of `Matrix` from a `py::list`. The test
`num_rows == 0 || (num_rows == 1 && py::len(input[0]) == 0)` evaluates
`py::len(input[0])` only when `num_rows == 1`. -/
def matrixFromList (junk : Nat → α) (input : List (PyObject α)) :
    Except Error (DenseMatrix α) := do
  let num_rows := input.length
  let single_empty ←
    if num_rows = 1 then do
      let first ← pyItem input 0
      let n ← pyLen first
      pure (decide (n = 0))
    else pure false
  if num_rows = 0 ∨ single_empty = true then
    pure (DenseMatrix.create 0 0 junk)
  else
    let first ← pyItem input 0
    let num_cols ← pyLen first
    let matrix := DenseMatrix.create num_rows num_cols junk
    forLoop num_rows (fun i matrix => listRow input num_cols i matrix) matrix

/-- The entry of a nested sequence with rows of length `c` at row-major offset
`k`: entry `k % c` of row `k / c`. -/
def readNested (rows : List (List α)) (c k : Nat) : Except Error α :=
  match rows[k / c]? with
  | some row =>
    match row[k % c]? with
    | some x => .ok x
    | none => .error .badIndex
  | none => .error .badIndex

/-- Binding `fill_identity`: `noalias(self) = IdentityMatrix(self.size1())`.
Returns `self` after the call. -/
def fill_identity [Zero α] [One α] (self : DenseMatrix α) : Except Error (DenseMatrix α) :=
  self.noaliasAssign (DenseMatrix.IdentityMatrix self.size1)

/-- An `array_1d<double, 3>`. -/
structure Array1d3 (α : Type) where
  x : α
  y : α
  z : α

/-- The three components of an `array_1d<double, 3>` in order. -/
def Array1d3.toList (v : Array1d3 α) : List α := [v.x, v.y, v.z]

/-- Binding `__mul__` with an `array_1d<double, 3>`. -/
def mulArray3 [Zero α] [Add α] [Mul α] (m1 : DenseMatrix α) (v : Array1d3 α) :
    Except Error (List α) := do
  if m1.size2 ≠ 3 then throw Error.size2IsNot3
  m1.prod v.toList

/-- The buffer `def_buffer` exposes for a `Matrix`. The sizes and the strides
are `size_type` values, the row stride a `size_type` product, and
`py::buffer_info` stores them as `ssize_t`. -/
def def_buffer (self : DenseMatrix α) : BufferInfo α where
  ptr := self.data
  itemsize := toSSize sizeofDouble
  format := formatDouble
  ndim := 2
  shape := [toSSize self.size1, toSSize self.size2]
  strides := [toSSize (sizeofDouble * self.size2 % 2 ^ 64), toSSize sizeofDouble]
  shape_range := by
    intro k hk
    simp only [List.mem_cons, List.mem_singleton, List.not_mem_nil, or_false] at hk
    rcases hk with h | h <;> (subst h; unfold IsSSize toSSize; split <;> omega)
  strides_range := by
    intro k hk
    simp only [List.mem_cons, List.mem_singleton, List.not_mem_nil, or_false] at hk
    rcases hk with h | h <;> (subst h; unfold IsSSize toSSize; split <;> omega)

end Matrix

/-! `AddMatrixToPython`: the dense complex matrix -/

section ComplexMatrix

variable {α : Type}

/-- The constructor of `ComplexMatrix` from a `py::buffer`. -/
def complexMatrixFromBuffer [Zero α] (junk : Nat → StdComplex α) (b : BufferInfo α) :
    Except Error (DenseMatrix (StdComplex α)) := do
  let info := b
  if info.format ≠ formatComplex ∧ info.format ≠ formatDouble then
    throw Error.expectedDoubleOrComplexArray
  if info.ndim ≠ 2 then throw (Error.bufferDimension info.ndim)
  let matrix := DenseMatrix.create (toSizeType (info.shape.getD 0 0))
    (toSizeType (info.shape.getD 1 0)) junk
  if info.format = formatComplex then
    let st ← copyLoop (readComplex info.ptr) (info.shape.getD 0 0) (info.shape.getD 1 0) matrix
    pure st.1
  else if info.format = formatDouble then
    let st ← copyLoop (readPromoted info.ptr) (info.shape.getD 0 0) (info.shape.getD 1 0) matrix
    pure st.1
  else pure matrix

end ComplexMatrix

/-! Concrete inputs -/

/-- The 2 × 3 matrix with rows `1 2 3` and `4 5 6`. -/
def sampleMatrix : DenseMatrix Int := ⟨2, 3, [1, 2, 3, 4, 5, 6], by decide⟩

/-- A contiguous 2 × 3 buffer of `double`s over the memory `1 2 3 4 5 6`. -/
def sampleBuffer : BufferInfo Int := ⟨[1, 2, 3, 4, 5, 6], 8, "d", 2, [2, 3], [24, 8], by decide, by decide⟩

/-- A 1 × 2 buffer of complex numbers `1 + 2i`, `3 + 4i`. -/
def sampleComplexBuffer : BufferInfo Int := ⟨[1, 2, 3, 4], 16, "Zd", 2, [1, 2], [32, 16], by decide, by decide⟩

/-- A 1 × 2 buffer of 32-bit floats. -/
def sampleFloatBuffer : BufferInfo Int := ⟨[1, 2], 4, "f", 2, [1, 2], [8, 4], by decide, by decide⟩

/-- What freshly allocated storage holds in the concrete instances. -/
def sampleJunk : Nat → Int := fun _ => -1

/-- What freshly allocated complex storage holds in the concrete instances. -/
def sampleComplexJunk : Nat → StdComplex Int := fun _ => ⟨-1, -1⟩

/-- A nested sequence with rows of equal length. -/
def sampleRows : List (List Int) := [[1, 2, 3], [4, 5, 6]]

/-- A nested sequence whose rows 1 and 2 are shorter than row 0. -/
def raggedRows : List (List Int) := [[1, 2, 3], [4, 5], [6]]

/-- A second 2 × 3 matrix. -/
def sampleMatrix2 : DenseMatrix Int := ⟨2, 3, [10, 20, 30, 40, 50, 60], by decide⟩

/-- A 2 × 2 matrix. -/
def sampleSquare : DenseMatrix Int := ⟨2, 2, [5, 6, 7, 8], by decide⟩

/-- The fixed-length vector `(1, 0, -1)`. -/
def sampleArray : Array1d3 Int := ⟨1, 0, -1⟩

/-- The matrix `Matrix(2147483648, 0)`: `2^31` rows and no column, hence no
element. -/
def tallMatrix : DenseMatrix Int := DenseMatrix.create 2147483648 0 sampleJunk

/-- A 2-D buffer of 64-bit floats of shape `(2147483648, 0)`, over no memory. -/
def tallBuffer : BufferInfo Int := ⟨[], 8, "d", 2, [2147483648, 0], [0, 8], by decide, by decide⟩

/-- The compressed matrix `CompressedMatrix(1, 18446744073709551615)`: one row,
`2^64 - 1` columns, nothing stored. -/
def wideCompressed : CompressedMatrix Int := CompressedMatrix.create 1 18446744073709551615

/-- A compressed 2 × 3 matrix storing `9` at `(0, 1)`, `5` at `(1, 0)` and `7`
at `(1, 2)`. -/
def sampleCompressed : CompressedMatrix Int := ⟨2, 3, [0, 1, 3], [1, 0, 2], [9, 5, 7], rfl, rfl⟩

/-- A compressed 2 × 3 matrix storing `1` at `(0, 0)` and `2` at `(1, 2)`. -/
def sampleCompressed2 : CompressedMatrix Int := ⟨2, 3, [0, 1, 2], [0, 2], [1, 2], rfl, rfl⟩

/-- An empty compressed 2 × 2 matrix. -/
def sampleCompressedSquare : CompressedMatrix Int := CompressedMatrix.create 2 2

/-! Loops -/

section Loops

variable {ε σ : Type}

theorem forLoop_zero (body : Nat → σ → Except ε σ) (s : σ) :
    forLoop 0 body s = .ok s := rfl

theorem forLoop_succ (n : Nat) (body : Nat → σ → Except ε σ) (s : σ) :
    forLoop (n + 1) body s = (forLoop n body s >>= body n) := by
  unfold forLoop
  rw [List.range_succ, List.foldlM_append]
  simp

/-- Total correctness of a loop: an invariant that every iteration preserves
without failing holds when the loop ends, and the loop does end. -/
theorem forLoop_total (P : Nat → σ → Prop) (n : Nat) (body : Nat → σ → Except ε σ) (s : σ)
    (h0 : P 0 s)
    (hstep : ∀ k st, k < n → P k st → ∃ st', body k st = .ok st' ∧ P (k + 1) st') :
    ∃ st', forLoop n body s = .ok st' ∧ P n st' := by
  induction n with
  | zero => exact ⟨s, rfl, h0⟩
  | succ n ih =>
    obtain ⟨st, hst, hP⟩ := ih (fun k st hk => hstep k st (Nat.lt_succ_of_lt hk))
    obtain ⟨st', hb, hP'⟩ := hstep n st (Nat.lt_succ_self n) hP
    refine ⟨st', ?_, hP'⟩
    rw [forLoop_succ, hst]
    exact hb

/-- Partial correctness of a loop: when the loop ends without failing, an
invariant preserved by every successful iteration holds. -/
theorem forLoop_partial (P : Nat → σ → Prop) (n : Nat) (body : Nat → σ → Except ε σ)
    (s s' : σ) (h0 : P 0 s)
    (hstep : ∀ k st st', k < n → P k st → body k st = .ok st' → P (k + 1) st')
    (hrun : forLoop n body s = .ok s') : P n s' := by
  induction n generalizing s' with
  | zero =>
    rw [forLoop_zero] at hrun
    cases hrun
    exact h0
  | succ n ih =>
    rw [forLoop_succ] at hrun
    cases hst : forLoop n body s with
    | error e => rw [hst] at hrun; cases hrun
    | ok st =>
      rw [hst] at hrun
      have hP := ih st (fun k a b hk => hstep k a b (Nat.lt_succ_of_lt hk)) hst
      exact hstep n st s' (Nat.lt_succ_self n) hP hrun

/-- A loop whose iteration `k` fails after `k` successful iterations fails with
the exception of that iteration. -/
theorem forLoop_fails (n k : Nat) (body : Nat → σ → Except ε σ) (s st : σ) (e : ε)
    (hk : k < n) (hrun : forLoop k body s = .ok st) (hfail : body k st = .error e) :
    forLoop n body s = .error e := by
  induction n with
  | zero => omega
  | succ n ih =>
    rw [forLoop_succ]
    by_cases hkn : k = n
    · subst hkn
      rw [hrun]
      exact hfail
    · rw [ih (by omega)]
      rfl

/-- The failure of a loop is the failure of one of its iterations. -/
theorem forLoop_error_source {ε σ : Type} (n : Nat) (body : Nat → σ → Except ε σ) (s : σ)
    (e : ε) (h : forLoop n body s = .error e) : ∃ k st, k < n ∧ body k st = .error e := by
  induction n with
  | zero => rw [forLoop_zero] at h; cases h
  | succ n ih =>
    rw [forLoop_succ] at h
    cases hst : forLoop n body s with
    | error e' =>
      rw [hst] at h
      cases h
      obtain ⟨k, st, hk, hb⟩ := ih hst
      exact ⟨k, st, Nat.lt_succ_of_lt hk, hb⟩
    | ok st =>
      rw [hst] at h
      exact ⟨n, st, Nat.lt_succ_self n, h⟩

end Loops

/-! Loops with an `int` counter -/

section IntLoops

variable {σ : Type}

theorem intStep_ok (body : Nat → σ → Except Error σ) (k : Nat) (st st' : σ) :
    intStep body k st = .ok st' ↔ body k st = .ok st' ∧ k + 1 < 2 ^ 31 := by
  unfold intStep
  cases hb : body k st with
  | error e =>
    constructor
    · intro h; cases h
    · rintro ⟨h, _⟩; cases h
  | ok s =>
    dsimp only
    by_cases hk : k + 1 < 2 ^ 31
    · rw [if_pos hk]
      constructor
      · intro h; exact ⟨h, hk⟩
      · intro h; exact h.1
    · rw [if_neg hk]
      constructor
      · intro h; cases h
      · intro h; exact absurd h.2 hk

theorem intStep_overflow (body : Nat → σ → Except Error σ) (k : Nat) (st st' : σ)
    (hb : body k st = .ok st') (hk : ¬ k + 1 < 2 ^ 31) :
    intStep body k st = .error .intOverflow := by
  unfold intStep
  rw [hb]
  dsimp only
  rw [if_neg hk]

theorem intStep_error (body : Nat → σ → Except Error σ) (k : Nat) (st : σ) (e : Error)
    (h : intStep body k st = .error e) : e = .intOverflow ∨ body k st = .error e := by
  unfold intStep at h
  cases hb : body k st with
  | error e' =>
    rw [hb] at h
    exact Or.inr h
  | ok s =>
    rw [hb] at h
    dsimp only at h
    by_cases hk : k + 1 < 2 ^ 31
    · rw [if_pos hk] at h; cases h
    · rw [if_neg hk] at h; cases h; exact Or.inl rfl

/-- Total correctness of a loop with an `int` counter whose bound an `int`
holds. -/
theorem intLoop_total (P : Nat → σ → Prop) (n : Nat) (hn : n < 2 ^ 31)
    (body : Nat → σ → Except Error σ) (s : σ) (h0 : P 0 s)
    (hstep : ∀ k st, k < n → P k st → ∃ st', body k st = .ok st' ∧ P (k + 1) st') :
    ∃ st', intLoop (n : Int) body s = .ok st' ∧ P n st' := by
  unfold intLoop
  rw [Int.toNat_ofNat]
  apply forLoop_total P n _ s h0
  intro k st hk hP
  obtain ⟨st', hb, hP'⟩ := hstep k st hk hP
  exact ⟨st', (intStep_ok body k st st').2 ⟨hb, by omega⟩, hP'⟩

/-- Partial correctness of a loop with an `int` counter: when the loop ends
without failing, the invariant holds and the counter never overflowed. -/
theorem intLoop_partial (P : Nat → σ → Prop) (n : Nat) (body : Nat → σ → Except Error σ)
    (s s' : σ) (h0 : P 0 s)
    (hstep : ∀ k st st', k < n → k + 1 < 2 ^ 31 → P k st → body k st = .ok st' →
      P (k + 1) st')
    (hrun : intLoop (n : Int) body s = .ok s') : P n s' ∧ n < 2 ^ 31 := by
  unfold intLoop at hrun
  rw [Int.toNat_ofNat] at hrun
  exact forLoop_partial (fun k st => P k st ∧ k < 2 ^ 31) n _ s s' ⟨h0, by norm_num⟩
    (fun k st st' hk hP hb => by
      obtain ⟨hb1, hb2⟩ := (intStep_ok body k st st').1 hb
      exact ⟨hstep k st st' hk hb2 hP.1 hb1, hb2⟩)
    hrun

/-- A loop with an `int` counter and a bound no `int` holds overflows its
counter, when its body does not fail before. -/
theorem intLoop_overflow (bound : Int) (hbound : 2 ^ 31 ≤ bound)
    (body : Nat → σ → Except Error σ) (s : σ)
    (hbody : ∀ k st, k < 2 ^ 31 → ∃ st', body k st = .ok st') :
    intLoop bound body s = .error .intOverflow := by
  unfold intLoop
  obtain ⟨st, hst, _⟩ := forLoop_total (fun _ _ => True) (2 ^ 31 - 1)
    (fun k st => intStep body k st) s trivial
    (fun k st hk _ => by
      obtain ⟨st', hb⟩ := hbody k st (by omega)
      exact ⟨st', (intStep_ok body k st st').2 ⟨hb, by omega⟩, trivial⟩)
  apply forLoop_fails bound.toNat (2 ^ 31 - 1) _ s st _ (by omega) hst
  obtain ⟨st', hb⟩ := hbody (2 ^ 31 - 1) st (by norm_num)
  exact intStep_overflow body _ st st' hb (by norm_num)

/-- The failure of a loop with an `int` counter is the overflow of the counter
or a failure of its body. -/
theorem intLoop_error_source (bound : Int) (body : Nat → σ → Except Error σ) (s : σ)
    (e : Error) (h : intLoop bound body s = .error e) :
    e = .intOverflow ∨ ∃ k st, body k st = .error e := by
  unfold intLoop at h
  obtain ⟨k, st, _, hk⟩ := forLoop_error_source _ _ _ _ h
  rcases intStep_error body k st e hk with h1 | h1
  · exact Or.inl h1
  · exact Or.inr ⟨k, st, h1⟩

end IntLoops

/-! Row-major offsets and element access -/

section Access

variable {β : Type}

theorem Size1_dense (m : DenseMatrix β) : Size1 m = m.size1 := rfl

theorem Size2_dense (m : DenseMatrix β) : Size2 m = m.size2 := rfl

theorem offset_lt {rows cols row col : Nat} (hrow : row < rows) (hcol : col < cols) :
    row * cols + col < rows * cols := by
  have hmul := Nat.mul_le_mul_right cols (Nat.succ_le_of_lt hrow)
  rw [Nat.succ_mul] at hmul
  omega

theorem offset_div {c i j : Nat} (hj : j < c) : (i * c + j) / c = i := by
  rw [Nat.add_comm, Nat.add_mul_div_right _ _ (by omega), Nat.div_eq_of_lt hj]
  simp

theorem offset_mod {c i j : Nat} (hj : j < c) : (i * c + j) % c = j := by
  rw [Nat.add_comm, Nat.add_mul_mod_self_right, Nat.mod_eq_of_lt hj]

theorem elem_of_data (m : DenseMatrix β) (i j : Nat) (x : β) (hi : i < m.size1)
    (hj : j < m.size2) (hx : m.data[i * m.size2 + j]? = some x) : m.elem i j = .ok x := by
  simp [DenseMatrix.elem, hi, hj, hx]

theorem elem_in_range (m : DenseMatrix β) (i j : Nat) (hi : i < m.size1) (hj : j < m.size2) :
    ∃ x, m.data[i * m.size2 + j]? = some x ∧ m.elem i j = .ok x := by
  have hlt : i * m.size2 + j < m.data.length := by
    rw [m.data_size]
    exact offset_lt hi hj
  refine ⟨m.data[i * m.size2 + j], List.getElem?_eq_getElem hlt, ?_⟩
  exact elem_of_data m i j _ hi hj (List.getElem?_eq_getElem hlt)

theorem elem_out_of_range (m : DenseMatrix β) (i j : Nat) (h : ¬ (i < m.size1 ∧ j < m.size2)) :
    m.elem i j = .error .badIndex := by
  simp [DenseMatrix.elem, h]

theorem assign_out_of_range (m : DenseMatrix β) (i j : Nat) (v : β)
    (h : ¬ (i < m.size1 ∧ j < m.size2)) : m.assign i j v = .error .badIndex := by
  simp [DenseMatrix.assign, h]

theorem copied_elem (read : Nat → Except Error β) (r c : Nat) (m : DenseMatrix β)
    (h : Copied read r c (r * c) m) (i j : Nat) (hi : i < r) (hj : j < c) :
    ∃ x, read (i * c + j) = .ok x ∧ m.elem i j = .ok x := by
  obtain ⟨h1, h2, h3⟩ := h
  obtain ⟨x, hx, hd⟩ := h3 (i * c + j) (offset_lt hi hj)
  refine ⟨x, hx, ?_⟩
  apply elem_of_data m i j x (by omega) (by omega)
  rw [h2]
  exact hd

theorem copied_zero (read : Nat → Except Error β) (m : DenseMatrix β) :
    Copied read m.size1 m.size2 0 m :=
  ⟨rfl, rfl, fun k hk => absurd hk (Nat.not_lt_zero k)⟩

theorem assign_in_range (m : DenseMatrix β) (i j : Nat) (v : β)
    (hi : i < m.size1) (hj : j < m.size2) :
    ∃ m', m.assign i j v = .ok m' ∧ m'.size1 = m.size1 ∧ m'.size2 = m.size2 ∧
      m'.data = m.data.set (i * m.size2 + j) v := by
  unfold DenseMatrix.assign
  rw [if_pos ⟨hi, hj⟩]
  exact ⟨_, rfl, rfl, rfl, rfl⟩

theorem assign_copied (read : Nat → Except Error β) (r c i j : Nat) (m : DenseMatrix β)
    (v : β) (h : Copied read r c (i * c + j) m) (hi : i < r) (hj : j < c)
    (hv : read (i * c + j) = .ok v) :
    ∃ m', m.assign i j v = .ok m' ∧ Copied read r c (i * c + j + 1) m' := by
  obtain ⟨h1, h2, h3⟩ := h
  have hlen : i * c + j < m.data.length := by
    rw [m.data_size, h1, h2]
    exact offset_lt hi hj
  obtain ⟨m', ha, hs1, hs2, hd⟩ := assign_in_range m i j v (by omega) (by omega)
  rw [h2] at hd
  refine ⟨m', ha, by omega, by omega, ?_⟩
  intro k hk
  rw [hd]
  by_cases hkc : k = i * c + j
  · subst hkc
    exact ⟨v, hv, List.getElem?_set_self hlen⟩
  · obtain ⟨x, hx, hdk⟩ := h3 k (by omega)
    refine ⟨x, hx, ?_⟩
    rw [List.getElem?_set_ne (fun hh => hkc hh.symm)]
    exact hdk

end Access

/-! The copy loops of the buffer constructors -/

section CopyLoop

variable {β : Type}

theorem copyCell_eq (read : Nat → Except Error β) (i j : Nat) (st : DenseMatrix β × Nat) :
    copyCell read i j st =
      match read st.2 with
      | .error e => .error e
      | .ok v =>
        match st.1.assign i j v with
        | .error e => .error e
        | .ok m' => .ok (m', (st.2 + 1) % 2 ^ 64) := by
  unfold copyCell
  cases read st.2 with
  | error e => rfl
  | ok v =>
    show (st.1.assign i j v >>= fun updated => pure (updated, (st.2 + 1) % 2 ^ 64)) =
      (match st.1.assign i j v with
        | .error e => .error e
        | .ok m' => .ok (m', (st.2 + 1) % 2 ^ 64))
    cases st.1.assign i j v <;> rfl

theorem copyCell_ok (read : Nat → Except Error β) (i j : Nat) (st st' : DenseMatrix β × Nat)
    (h : copyCell read i j st = .ok st') :
    ∃ v m', read st.2 = .ok v ∧ st.1.assign i j v = .ok m' ∧
      st' = (m', (st.2 + 1) % 2 ^ 64) := by
  rw [copyCell_eq] at h
  cases hr : read st.2 with
  | error e => rw [hr] at h; cases h
  | ok v =>
    rw [hr] at h
    dsimp only at h
    cases ha : st.1.assign i j v with
    | error e => rw [ha] at h; cases h
    | ok m' =>
      rw [ha] at h
      cases h
      exact ⟨v, m', rfl, ha, rfl⟩

theorem copyCell_run (read : Nat → Except Error β) (i j : Nat) (st : DenseMatrix β × Nat)
    (v : β) (m' : DenseMatrix β) (hv : read st.2 = .ok v) (ha : st.1.assign i j v = .ok m') :
    copyCell read i j st = .ok (m', (st.2 + 1) % 2 ^ 64) := by
  rw [copyCell_eq, hv]
  dsimp only
  rw [ha]

theorem copyCell_error (read : Nat → Except Error β) (i j : Nat) (st : DenseMatrix β × Nat)
    (e : Error) (h : copyCell read i j st = .error e) :
    (∃ k, read k = .error e) ∨ e = .badIndex := by
  rw [copyCell_eq] at h
  cases hr : read st.2 with
  | error e' =>
    rw [hr] at h
    cases h
    exact Or.inl ⟨st.2, hr⟩
  | ok v =>
    rw [hr] at h
    dsimp only at h
    right
    by_cases hin : i < st.1.size1 ∧ j < st.1.size2
    · obtain ⟨m', ha, _⟩ := assign_in_range st.1 i j v hin.1 hin.2
      rw [ha] at h
      cases h
    · rw [assign_out_of_range st.1 i j v hin] at h
      cases h
      rfl

/-- With both counters below `2^31` the count of copied cells stays a
`std::size_t`. -/
theorem count_succ_mod (i c j : Nat) (hi : i < 2 ^ 31) (hj : j < 2 ^ 31)
    (hc : 0 < i → c < 2 ^ 31) : (i * c + j + 1) % 2 ^ 64 = i * c + j + 1 := by
  apply Nat.mod_eq_of_lt
  by_cases h0 : i = 0
  · subst h0
    omega
  · have hc' := hc (Nat.pos_of_ne_zero h0)
    have hmul : i * c ≤ 2 ^ 31 * 2 ^ 31 :=
      Nat.mul_le_mul (Nat.le_of_lt hi) (Nat.le_of_lt hc')
    omega

/-- The copy loops end without failing when both bounds are below `2^31` and
every offset below `r * c` can be read, and then every cell holds the value
read at its row-major offset. -/
theorem copyLoop_total (read : Nat → Except Error β) (r c : Nat) (hr : r < 2 ^ 31)
    (hc : c < 2 ^ 31) (matrix : DenseMatrix β)
    (h1 : matrix.size1 = r) (h2 : matrix.size2 = c)
    (hread : ∀ k, k < r * c → ∃ x, read k = .ok x) :
    ∃ st, copyLoop read (r : Int) (c : Int) matrix = .ok st ∧ Copied read r c (r * c) st.1 := by
  have hrun := intLoop_total
    (fun i (st : DenseMatrix β × Nat) => Copied read r c (i * c) st.1 ∧ st.2 = i * c)
    r hr (fun i st => intLoop (c : Int) (fun j st => copyCell read i j st) st) (matrix, 0)
    (by
      refine ⟨?_, by simp⟩
      have h0 := copied_zero read matrix
      rw [h1, h2] at h0
      simpa using h0)
    (by
      intro i st hi hP
      have hin := intLoop_total
        (fun j (st : DenseMatrix β × Nat) => Copied read r c (i * c + j) st.1 ∧ st.2 = i * c + j)
        c hc (fun j st => copyCell read i j st) st
        (by simpa using hP)
        (by
          intro j s hj hQ
          obtain ⟨v, hv⟩ := hread (i * c + j) (offset_lt hi hj)
          obtain ⟨m', ha, hcop⟩ := assign_copied read r c i j s.1 v hQ.1 hi hj hv
          refine ⟨(m', (s.2 + 1) % 2 ^ 64),
            copyCell_run read i j s v m' (by rw [hQ.2]; exact hv) ha, hcop, ?_⟩
          show (s.2 + 1) % 2 ^ 64 = i * c + (j + 1)
          rw [hQ.2, count_succ_mod i c j (by omega) (by omega) (fun _ => hc)]
          omega)
      obtain ⟨st', hst, hQ1, hQ2⟩ := hin
      refine ⟨st', hst, ?_, ?_⟩
      · rw [Nat.succ_mul]; exact hQ1
      · rw [Nat.succ_mul]; exact hQ2)
  obtain ⟨st, hst, hP, _⟩ := hrun
  exact ⟨st, hst, hP⟩

/-- When the copy loops end without failing, every offset below `r * c` was
read and every cell holds the value read at its row-major offset. -/
theorem copyLoop_partial (read : Nat → Except Error β) (r c : Nat) (matrix : DenseMatrix β)
    (st : DenseMatrix β × Nat) (h1 : matrix.size1 = r) (h2 : matrix.size2 = c)
    (hrun : copyLoop read (r : Int) (c : Int) matrix = .ok st) :
    Copied read r c (r * c) st.1 := by
  have hres := intLoop_partial
    (fun i (st : DenseMatrix β × Nat) =>
      Copied read r c (i * c) st.1 ∧ st.2 = i * c ∧ (0 < i → c < 2 ^ 31))
    r (fun i st => intLoop (c : Int) (fun j st => copyCell read i j st) st) (matrix, 0) st
    (by
      refine ⟨?_, by simp, fun h => absurd h (Nat.lt_irrefl 0)⟩
      have h0 := copied_zero read matrix
      rw [h1, h2] at h0
      simpa using h0)
    (by
      intro i s s' hi hi31 hP hs
      have hin := intLoop_partial
        (fun j (st : DenseMatrix β × Nat) => Copied read r c (i * c + j) st.1 ∧ st.2 = i * c + j)
        c (fun j st => copyCell read i j st) s s'
        (by
          refine ⟨?_, ?_⟩
          · simpa using hP.1
          · simpa using hP.2.1)
        (by
          intro j a a' hj hj31 hQ hcell
          obtain ⟨v, m', hv, ha, ha'⟩ := copyCell_ok read i j a a' hcell
          rw [hQ.2] at hv
          obtain ⟨m2, ha2, hcop⟩ := assign_copied read r c i j a.1 v hQ.1 hi hj hv
          rw [ha] at ha2
          cases ha2
          subst ha'
          refine ⟨hcop, ?_⟩
          show (a.2 + 1) % 2 ^ 64 = i * c + (j + 1)
          rw [hQ.2, count_succ_mod i c j (by omega) (by omega) hP.2.2]
          omega)
        hs
      obtain ⟨⟨hQ1, hQ2⟩, hc31⟩ := hin
      refine ⟨?_, ?_, fun _ => hc31⟩
      · rw [Nat.succ_mul]; exact hQ1
      · rw [Nat.succ_mul]; exact hQ2)
    hrun
  exact hres.1.1

/-- The failure of the copy loops is a failed read, a failed write or the
overflow of a counter. -/
theorem copyLoop_error (read : Nat → Except Error β) (shape0 shape1 : Int)
    (matrix : DenseMatrix β) (e : Error) (h : copyLoop read shape0 shape1 matrix = .error e) :
    (∃ k, read k = .error e) ∨ e = .badIndex ∨ e = .intOverflow := by
  rcases intLoop_error_source _ _ _ _ h with h1 | ⟨i, st, hrow⟩
  · exact Or.inr (Or.inr h1)
  · rcases intLoop_error_source _ _ _ _ hrow with h2 | ⟨j, s, hcell⟩
    · exact Or.inr (Or.inr h2)
    · rcases copyCell_error read i j s e hcell with h3 | h3
      · exact Or.inl h3
      · exact Or.inr (Or.inl h3)

/-- With `2^31` rows or more and no column the row counter overflows. -/
theorem copyLoop_overflow (read : Nat → Except Error β) (shape0 shape1 : Int)
    (matrix : DenseMatrix β) (h0 : 2 ^ 31 ≤ shape0) (h1 : shape1 ≤ 0) :
    copyLoop read shape0 shape1 matrix = .error .intOverflow := by
  unfold copyLoop
  apply intLoop_overflow shape0 h0
  intro i st _
  refine ⟨st, ?_⟩
  unfold intLoop
  rw [Int.toNat_of_nonpos h1]
  rfl

end CopyLoop

/-! The buffer constructors -/

section Buffers

variable {α : Type}

theorem readDouble_ok (ptr : List α) (k : Nat) (x : α) :
    readDouble ptr k = .ok x ↔ ptr[k]? = some x := by
  unfold readDouble
  cases h : ptr[k]? <;> simp

theorem readDouble_error (ptr : List α) (k : Nat) (e : Error) (h : readDouble ptr k = .error e) :
    e = .invalidRead := by
  unfold readDouble at h
  cases hk : ptr[k]? <;> simp [hk] at h
  exact h.symm

theorem readDouble_lt (ptr : List α) (k : Nat) (h : k < ptr.length) :
    ∃ x, readDouble ptr k = .ok x :=
  ⟨ptr[k], (readDouble_ok ptr k _).2 (List.getElem?_eq_getElem h)⟩

theorem readComplex_lt (ptr : List α) (k : Nat) (h : 2 * k + 1 < ptr.length) :
    ∃ z, readComplex ptr k = .ok z := by
  unfold readComplex
  rw [List.getElem?_eq_getElem (show 2 * k < ptr.length by omega), List.getElem?_eq_getElem h]
  exact ⟨_, rfl⟩

theorem readPromoted_ok [Zero α] (ptr : List α) (k : Nat) (z : StdComplex α) :
    readPromoted ptr k = .ok z ↔ ∃ x, ptr[k]? = some x ∧ z = ⟨x, 0⟩ := by
  unfold readPromoted readDouble
  cases h : ptr[k]? with
  | none => simp [bind, Except.bind]
  | some x =>
    simp only [bind, Except.bind, pure, Except.pure, Except.ok.injEq, Option.some.injEq]
    constructor
    · intro hz; exact ⟨x, rfl, hz.symm⟩
    · rintro ⟨y, hy, hz⟩; rw [hz, hy]

theorem readComplex_ok (ptr : List α) (k : Nat) (z : StdComplex α) :
    readComplex ptr k = .ok z ↔ ptr[2 * k]? = some z.re ∧ ptr[2 * k + 1]? = some z.im := by
  unfold readComplex
  cases z with
  | mk re im =>
    cases h1 : ptr[2 * k]? <;> cases h2 : ptr[2 * k + 1]? <;> simp

theorem toSizeType_natCast (n : Nat) (hn : n < 2 ^ 64) : toSizeType (n : Int) = n := by
  unfold toSizeType
  omega

theorem toSSize_small (n : Nat) (hn : n < 2 ^ 63) : toSSize n = (n : Int) := by
  unfold toSSize
  have hmod : n % 2 ^ 64 = n := Nat.mod_eq_of_lt (by omega)
  rw [hmod, if_pos hn]

/-- The entries of a shape `(r, c)` of naturals are `size_type` values too. -/
theorem shape_entries (b : BufferInfo α) (r c : Nat) (hshape : b.shape = [(r : Int), (c : Int)]) :
    r < 2 ^ 63 ∧ c < 2 ^ 63 := by
  have hr := b.shape_range (r : Int) (by rw [hshape]; simp)
  have hc := b.shape_range (c : Int) (by rw [hshape]; simp)
  unfold IsSSize at hr hc
  omega

theorem matrixFromBuffer_format (junk : Nat → α) (b : BufferInfo α)
    (h : b.format ≠ formatDouble) : matrixFromBuffer junk b = .error .expectedDoubleArray := by
  simp [matrixFromBuffer, h, bind, Except.bind, throw, throwThe, MonadExceptOf.throw]

theorem matrixFromBuffer_ndim (junk : Nat → α) (b : BufferInfo α)
    (hf : b.format = formatDouble) (h : b.ndim ≠ 2) :
    matrixFromBuffer junk b = .error (.bufferDimension b.ndim) := by
  simp [matrixFromBuffer, hf, h, bind, Except.bind, throw, throwThe, MonadExceptOf.throw,
    pure, Except.pure]

theorem matrixFromBuffer_copy (junk : Nat → α) (b : BufferInfo α)
    (hf : b.format = formatDouble) (h : b.ndim = 2) :
    matrixFromBuffer junk b =
      (copyLoop (readDouble b.ptr) (b.shape.getD 0 0) (b.shape.getD 1 0)
        (DenseMatrix.create (toSizeType (b.shape.getD 0 0)) (toSizeType (b.shape.getD 1 0))
          junk)).map (fun st => st.1) := by
  simp only [matrixFromBuffer, hf, h, bind, Except.bind, throw, throwThe, MonadExceptOf.throw,
    pure, Except.pure, ne_eq, not_true_eq_false, if_false, Except.map]

/-- On a shape `(r, c)` of naturals the copy loops of the real constructor run
over the `r × c` matrix. -/
theorem matrixFromBuffer_shape (junk : Nat → α) (b : BufferInfo α) (r c : Nat)
    (hf : b.format = formatDouble) (h : b.ndim = 2) (hshape : b.shape = [(r : Int), (c : Int)]) :
    matrixFromBuffer junk b =
      (copyLoop (readDouble b.ptr) (r : Int) (c : Int)
        (DenseMatrix.create r c junk)).map (fun st => st.1) := by
  obtain ⟨hr, hc⟩ := shape_entries b r c hshape
  rw [matrixFromBuffer_copy junk b hf h, hshape]
  simp only [List.getD_cons_zero, List.getD_cons_succ]
  rw [toSizeType_natCast r (by omega), toSizeType_natCast c (by omega)]

/-- The buffer a matrix of fewer than `2^31` rows and columns exports reads
back, cell by cell, as its storage. -/
theorem matrixFromBuffer_def_buffer (junk : Nat → α) (A : DenseMatrix α)
    (h1 : A.size1 < 2 ^ 31) (h2 : A.size2 < 2 ^ 31) :
    matrixFromBuffer junk (def_buffer A) = .ok A := by
  have hshape : (def_buffer A).shape = [(A.size1 : Int), (A.size2 : Int)] := by
    show [toSSize A.size1, toSSize A.size2] = _
    rw [toSSize_small A.size1 (by omega), toSSize_small A.size2 (by omega)]
  rw [matrixFromBuffer_shape junk (def_buffer A) A.size1 A.size2 rfl rfl hshape]
  have hptr : (def_buffer A).ptr = A.data := rfl
  rw [hptr]
  obtain ⟨st, hst, hs1, hs2, hcells⟩ := copyLoop_total (readDouble A.data) A.size1 A.size2
    h1 h2 (DenseMatrix.create A.size1 A.size2 junk) rfl rfl
    (fun k hk => readDouble_lt A.data k (by rw [A.data_size]; exact hk))
  rw [hst]
  have hdata : st.1.data = A.data := by
    apply List.ext_getElem?
    intro k
    by_cases hk : k < A.size1 * A.size2
    · obtain ⟨x, hx, hd⟩ := hcells k hk
      rw [hd, (readDouble_ok A.data k x).1 hx]
    · have h1 : st.1.data.length ≤ k := by rw [st.1.data_size, hs1, hs2]; omega
      have h2 : A.data.length ≤ k := by rw [A.data_size]; omega
      rw [List.getElem?_eq_none h1, List.getElem?_eq_none h2]
  show Except.ok st.1 = Except.ok A
  congr 1
  cases hm : st.1 with
  | mk s1 s2 d hd =>
    cases A with
    | mk a1 a2 ad had =>
      rw [hm] at hs1 hs2 hdata
      simp only at hs1 hs2 hdata
      subst hs1 hs2 hdata
      rfl

theorem complexMatrixFromBuffer_format [Zero α] (junk : Nat → StdComplex α) (b : BufferInfo α)
    (h1 : b.format ≠ formatComplex) (h2 : b.format ≠ formatDouble) :
    complexMatrixFromBuffer junk b = .error .expectedDoubleOrComplexArray := by
  simp [complexMatrixFromBuffer, h1, h2, bind, Except.bind, throw, throwThe,
    MonadExceptOf.throw]

theorem complexMatrixFromBuffer_complex [Zero α] (junk : Nat → StdComplex α)
    (b : BufferInfo α) (hf : b.format = formatComplex) (h : b.ndim = 2) :
    complexMatrixFromBuffer junk b =
      (copyLoop (readComplex b.ptr) (b.shape.getD 0 0) (b.shape.getD 1 0)
        (DenseMatrix.create (toSizeType (b.shape.getD 0 0)) (toSizeType (b.shape.getD 1 0))
          junk)).map (fun st => st.1) := by
  simp only [complexMatrixFromBuffer, hf, h, bind, Except.bind, throw, throwThe,
    MonadExceptOf.throw, pure, Except.pure, ne_eq, not_true_eq_false, if_false, Except.map,
    false_and, if_true]

theorem complexMatrixFromBuffer_double [Zero α] (junk : Nat → StdComplex α)
    (b : BufferInfo α) (hf : b.format = formatDouble) (h : b.ndim = 2) :
    complexMatrixFromBuffer junk b =
      (copyLoop (readPromoted b.ptr) (b.shape.getD 0 0) (b.shape.getD 1 0)
        (DenseMatrix.create (toSizeType (b.shape.getD 0 0)) (toSizeType (b.shape.getD 1 0))
          junk)).map (fun st => st.1) := by
  have hne : formatDouble ≠ formatComplex := by decide
  simp only [complexMatrixFromBuffer, hf, h, hne, bind, Except.bind, throw, throwThe,
    MonadExceptOf.throw, pure, Except.pure, ne_eq, not_true_eq_false, if_false, Except.map,
    and_false, if_true]

/-- On a 2-D buffer of shape `(r, c)` with `r` and `c` below `2^31`, whose memory
holds the elements of its shape, the complex constructor returns the `r × c`
matrix of the buffer's elements: promoted with a zero imaginary part for the
64-bit float format, as they are for the complex format. -/
theorem complexMatrixFromBuffer_bounded [Zero α] (junk : Nat → StdComplex α)
    (b : BufferInfo α) (r c : Nat) (hnd : b.ndim = 2) (hshape : b.shape = [(r : Int), (c : Int)])
    (hr : r < 2 ^ 31) (hc : c < 2 ^ 31) :
    (b.format = formatDouble → r * c ≤ b.ptr.length →
      ∃ M, complexMatrixFromBuffer junk b = .ok M ∧ Size1 M = r ∧ Size2 M = c ∧
        ∀ i j, i < r → j < c →
          ∃ x, b.ptr[i * c + j]? = some x ∧ M.elem i j = .ok ⟨x, 0⟩) ∧
    (b.format = formatComplex → 2 * (r * c) ≤ b.ptr.length →
      ∃ M, complexMatrixFromBuffer junk b = .ok M ∧ Size1 M = r ∧ Size2 M = c ∧
        ∀ i j, i < r → j < c →
          ∃ re im, b.ptr[2 * (i * c + j)]? = some re ∧ b.ptr[2 * (i * c + j) + 1]? = some im ∧
            M.elem i j = .ok ⟨re, im⟩) := by
  have htr : toSizeType (r : Int) = r := toSizeType_natCast r (by omega)
  have htc : toSizeType (c : Int) = c := toSizeType_natCast c (by omega)
  refine ⟨?_, ?_⟩
  · intro hf hlen
    rw [complexMatrixFromBuffer_double junk b hf hnd, hshape]
    simp only [List.getD_cons_zero, List.getD_cons_succ]
    rw [htr, htc]
    obtain ⟨st, hst, hcop⟩ := copyLoop_total (readPromoted b.ptr) r c hr hc
      (DenseMatrix.create r c junk) rfl rfl
      (fun k hk => by
        have hk2 : k < b.ptr.length := by omega
        exact ⟨⟨b.ptr[k], 0⟩,
          (readPromoted_ok b.ptr k _).2 ⟨_, List.getElem?_eq_getElem hk2, rfl⟩⟩)
    rw [hst]
    refine ⟨st.1, rfl, hcop.1, hcop.2.1, ?_⟩
    intro i j hi hj
    obtain ⟨z, hz, hel⟩ := copied_elem _ r c st.1 hcop i j hi hj
    obtain ⟨x, hx, hzx⟩ := (readPromoted_ok b.ptr _ z).1 hz
    exact ⟨x, hx, by rw [hel, hzx]⟩
  · intro hf hlen
    rw [complexMatrixFromBuffer_complex junk b hf hnd, hshape]
    simp only [List.getD_cons_zero, List.getD_cons_succ]
    rw [htr, htc]
    obtain ⟨st, hst, hcop⟩ := copyLoop_total (readComplex b.ptr) r c hr hc
      (DenseMatrix.create r c junk) rfl rfl
      (fun k hk => readComplex_lt b.ptr k (by omega))
    rw [hst]
    refine ⟨st.1, rfl, hcop.1, hcop.2.1, ?_⟩
    intro i j hi hj
    obtain ⟨z, hz, hel⟩ := copied_elem _ r c st.1 hcop i j hi hj
    have hz2 := (readComplex_ok b.ptr _ z).1 hz
    exact ⟨z.re, z.im, hz2.1, hz2.2, hel⟩

end Buffers

/-! The list constructor -/

section ListConstructor

variable {α : Type}

theorem pyItem_nested (rows : List (List α)) (i : Nat) (row : List α)
    (h : rows[i]? = some row) :
    pyItem (nested rows) i = .ok (PyObject.list (row.map PyObject.float)) := by
  simp [pyItem, nested, h]

theorem listEntry_nested (row : List α) (i j : Nat) (x : α) (matrix : DenseMatrix α)
    (h : row[j]? = some x) :
    listEntry (row.map PyObject.float) i j matrix = matrix.assign i j x := by
  simp [listEntry, pyItem, castDouble, h, bind, Except.bind]

theorem listRow_nested_bad (rows : List (List α)) (c i : Nat) (row : List α)
    (matrix : DenseMatrix α) (h : rows[i]? = some row) (hlen : row.length ≠ c) :
    listRow (nested rows) c i matrix = .error (.wrongRowSize i c row.length) := by
  simp [listRow, pyItem_nested rows i row h, castList, hlen, bind, Except.bind, throw,
    throwThe, MonadExceptOf.throw]

theorem listRow_nested_good (rows : List (List α)) (c i : Nat) (row : List α)
    (matrix : DenseMatrix α) (h : rows[i]? = some row) (hlen : row.length = c) :
    listRow (nested rows) c i matrix =
      forLoop c (fun j m => listEntry (row.map PyObject.float) i j m) matrix := by
  simp [listRow, pyItem_nested rows i row h, castList, hlen, bind, Except.bind, pure,
    Except.pure]

theorem readNested_offset (rows : List (List α)) (c i j : Nat) (row : List α) (x : α)
    (hj : j < c) (hrow : rows[i]? = some row) (hx : row[j]? = some x) :
    readNested rows c (i * c + j) = .ok x := by
  simp [readNested, offset_div hj, offset_mod hj, hrow, hx]

/-- A row of the right length is copied into row `i` of the matrix. -/
theorem listRow_copied (rows : List (List α)) (r c i : Nat) (row : List α)
    (matrix : DenseMatrix α) (hi : i < r) (hrow : rows[i]? = some row) (hlen : row.length = c)
    (h : Copied (readNested rows c) r c (i * c) matrix) :
    ∃ m', listRow (nested rows) c i matrix = .ok m' ∧
      Copied (readNested rows c) r c ((i + 1) * c) m' := by
  rw [listRow_nested_good rows c i row matrix hrow hlen, Nat.succ_mul]
  apply forLoop_total (fun j m => Copied (readNested rows c) r c (i * c + j) m)
  · simpa using h
  · intro j m hj hQ
    have hjr : j < row.length := by omega
    have hx : row[j]? = some row[j] := List.getElem?_eq_getElem hjr
    rw [listEntry_nested row i j _ m hx]
    exact assign_copied _ r c i j m _ hQ hi hj (readNested_offset rows c i j row _ hj hrow hx)

/-- The rows before the first one of a wrong length are copied. -/
theorem listRows_copied (rows : List (List α)) (c n : Nat) (matrix : DenseMatrix α)
    (hn : n ≤ rows.length) (h1 : matrix.size1 = rows.length) (h2 : matrix.size2 = c)
    (hgood : ∀ i row, i < n → rows[i]? = some row → row.length = c) :
    ∃ m', forLoop n (fun i m => listRow (nested rows) c i m) matrix = .ok m' ∧
      Copied (readNested rows c) rows.length c (n * c) m' := by
  apply forLoop_total (fun i m => Copied (readNested rows c) rows.length c (i * c) m)
  · have h0 := copied_zero (readNested rows c) matrix
    rw [h1, h2] at h0
    simpa using h0
  · intro i m hi hP
    have hir : i < rows.length := by omega
    have hrow : rows[i]? = some rows[i] := List.getElem?_eq_getElem hir
    exact listRow_copied rows rows.length c i _ m hir hrow (hgood i _ hi hrow) hP

theorem matrixFromList_nil (junk : Nat → α) :
    matrixFromList junk (nested ([] : List (List α))) = .ok (DenseMatrix.create 0 0 junk) := rfl

theorem matrixFromList_single_empty (junk : Nat → α) :
    matrixFromList junk (nested ([[]] : List (List α))) = .ok (DenseMatrix.create 0 0 junk) :=
  rfl

theorem matrixFromList_rows (junk : Nat → α) (first : List α) (rest : List (List α))
    (h : ¬ (first = [] ∧ rest = [])) :
    matrixFromList junk (nested (first :: rest)) =
      forLoop (first :: rest).length
        (fun i m => listRow (nested (first :: rest)) first.length i m)
        (DenseMatrix.create (first :: rest).length first.length junk) := by
  cases rest with
  | nil =>
    have hf : first ≠ [] := fun hf => h ⟨hf, rfl⟩
    simp [matrixFromList, nested, pyItem, pyLen, bind, Except.bind, pure, Except.pure, hf]
  | cons second rest =>
    simp [matrixFromList, nested, pyItem, pyLen, bind, Except.bind, pure, Except.pure]

/-- When every row has the length of the first, the list constructor returns
the matrix holding the rows. -/
theorem matrixFromList_all_good (junk : Nat → α) (first : List α) (rest : List (List α))
    (h : ¬ (first = [] ∧ rest = []))
    (hgood : ∀ (i : Nat) (row : List α), (first :: rest)[i]? = some row → row.length = first.length) :
    ∃ M, matrixFromList junk (nested (first :: rest)) = .ok M ∧
      Copied (readNested (first :: rest) first.length) (first :: rest).length first.length
        ((first :: rest).length * first.length) M := by
  rw [matrixFromList_rows junk first rest h]
  exact listRows_copied (first :: rest) first.length (first :: rest).length _ (le_refl _)
    rfl rfl (fun i row _ hrow => hgood i row hrow)

/-- The first row whose length is not that of row 0 makes the list constructor
fail, reporting its index, the length of row 0 and its own length. -/
theorem matrixFromList_first_bad (junk : Nat → α) (first : List α) (rest : List (List α))
    (h : ¬ (first = [] ∧ rest = [])) (i : Nat) (row : List α)
    (hrow : (first :: rest)[i]? = some row) (hlen : row.length ≠ first.length)
    (hbefore : ∀ (k : Nat) (row' : List α), k < i → (first :: rest)[k]? = some row' →
      row'.length = first.length) :
    matrixFromList junk (nested (first :: rest)) =
      .error (.wrongRowSize i first.length row.length) := by
  rw [matrixFromList_rows junk first rest h]
  have hi : i < (first :: rest).length := by
    by_contra hcon
    rw [List.getElem?_eq_none (by omega)] at hrow
    cases hrow
  obtain ⟨st, hst, _⟩ := listRows_copied (first :: rest) first.length i
    (DenseMatrix.create (first :: rest).length first.length junk) (by omega) rfl rfl hbefore
  exact forLoop_fails _ i _ _ st _ hi hst
    (listRow_nested_bad (first :: rest) first.length i row st hrow hlen)

/-- Among the rows of a wrong length there is a first one. -/
theorem exists_first_bad (rows : List (List α)) (c : Nat)
    (h : ∃ (i : Nat) (row : List α), rows[i]? = some row ∧ row.length ≠ c) :
    ∃ (i : Nat) (row : List α), rows[i]? = some row ∧ row.length ≠ c ∧
      ∀ (k : Nat) (row' : List α), k < i → rows[k]? = some row' → row'.length = c := by
  classical
  have hex : ∃ i : Nat, ∃ row : List α, rows[i]? = some row ∧ row.length ≠ c := h
  obtain ⟨row, hrow, hlen⟩ := Nat.find_spec hex
  refine ⟨Nat.find hex, row, hrow, hlen, ?_⟩
  intro k row' hk hrow'
  by_contra hne
  exact Nat.find_min hex hk ⟨row', hrow', hne⟩

/-- The list constructor builds a matrix of any number of empty rows. -/
theorem matrixFromList_tall {α : Type} (junk : Nat → α) (n : Nat) (hn : 0 < n) :
    ∃ M, matrixFromList junk (nested (List.replicate (n + 1) ([] : List α))) = .ok M ∧
      Size1 M = n + 1 ∧ Size2 M = 0 := by
  rw [List.replicate_succ]
  have hne : ¬ (([] : List α) = [] ∧ List.replicate n ([] : List α) = []) := by
    rintro ⟨_, h⟩
    have hlen := congrArg List.length h
    rw [List.length_replicate] at hlen
    simp at hlen
    omega
  obtain ⟨M, hM, hcop⟩ := matrixFromList_all_good junk [] (List.replicate n []) hne
    (fun i row hrow => by
      have hmem := List.getElem?_mem hrow
      rw [← List.replicate_succ] at hmem
      rw [List.eq_of_mem_replicate hmem])
  refine ⟨M, hM, ?_, hcop.2.1⟩
  rw [Size1_dense, hcop.1]
  simp

end ListConstructor

/-! The specification's properties of the list constructor -/

section ListClaims

variable {α : Type}

/-- C1: for a nested sequence that is neither empty nor a single empty row, the
list constructor fails with a ShapeMismatch error exactly when some row has a
length different from that of the first row; and when it fails, the error
reports the smallest index `i` of such a row, the length of the first row as
the expected length and the length of row `i` as the actual one. -/
theorem matrixFromList_shape_mismatch (junk : Nat → α) (rows : List (List α))
    (hne : rows ≠ []) (hne1 : rows ≠ [[]]) :
    ((∃ e, matrixFromList junk (nested rows) = .error e ∧ e.condition = .ShapeMismatch) ↔
      ∃ (i : Nat) (row : List α), rows[i]? = some row ∧ row.length ≠ (rows.headD []).length) ∧
    (∀ e, matrixFromList junk (nested rows) = .error e →
      ∃ (i : Nat) (row : List α), rows[i]? = some row ∧ row.length ≠ (rows.headD []).length ∧
        (∀ (k : Nat) (row' : List α), k < i → rows[k]? = some row' → row'.length = (rows.headD []).length) ∧
        e = .wrongRowSize i (rows.headD []).length row.length) := by
  cases rows with
  | nil => exact absurd rfl hne
  | cons first rest =>
    have h : ¬ (first = [] ∧ rest = []) := by
      rintro ⟨h1, h2⟩
      exact hne1 (by rw [h1, h2])
    simp only [List.headD_cons]
    have hbad : ∀ e, matrixFromList junk (nested (first :: rest)) = .error e →
        ∃ (i : Nat) (row : List α), (first :: rest)[i]? = some row ∧ row.length ≠ first.length := by
      intro e he
      by_contra hcon
      push_neg at hcon
      obtain ⟨M, hM, _⟩ := matrixFromList_all_good junk first rest h hcon
      rw [hM] at he
      cases he
    refine ⟨⟨?_, ?_⟩, ?_⟩
    · rintro ⟨e, he, _⟩
      exact hbad e he
    · intro hex
      obtain ⟨i, row, hrow, hlen, hbefore⟩ := exists_first_bad _ _ hex
      exact ⟨_, matrixFromList_first_bad junk first rest h i row hrow hlen hbefore, rfl⟩
    · intro e he
      obtain ⟨i, row, hrow, hlen, hbefore⟩ := exists_first_bad _ _ (hbad e he)
      have hres := matrixFromList_first_bad junk first rest h i row hrow hlen hbefore
      rw [hres] at he
      cases he
      exact ⟨i, row, hrow, hlen, hbefore, rfl⟩

/-- An instance of C1: with rows of lengths 3, 2 and 1 the constructor fails at
row 1, expecting 3 entries and finding 2. -/
theorem matrixFromList_shape_mismatch_witness :
    raggedRows ≠ [] ∧ raggedRows ≠ [[]] ∧
    matrixFromList sampleJunk (nested raggedRows) = .error (.wrongRowSize 1 3 2) ∧
    ((∃ e, matrixFromList sampleJunk (nested raggedRows) = .error e ∧
        e.condition = .ShapeMismatch) ↔
      ∃ (i : Nat) (row : List Int), raggedRows[i]? = some row ∧ row.length ≠ (raggedRows.headD []).length) :=
  ⟨by decide, by decide, by decide,
    (matrixFromList_shape_mismatch sampleJunk raggedRows (by decide) (by decide)).1⟩

/-- C2: for a nested sequence of numbers whose rows all have the same length,
the list constructor succeeds; it returns a 0 × 0 matrix when the sequence is
empty or is a single empty row, and otherwise a matrix with `Size1` the number
of rows, `Size2` the length of the first row, and element `(i, j)` the `j`-th
entry of the `i`-th row (`__getitem__` at such indices is the element read
`elem`, see `getitem_eq_elem`). -/
theorem matrixFromList_uniform (junk : Nat → α) (rows : List (List α))
    (hrows : ∀ row, row ∈ rows → row.length = (rows.headD []).length) :
    ∃ M, matrixFromList junk (nested rows) = .ok M ∧
      ((rows = [] ∨ rows = [[]]) → Size1 M = 0 ∧ Size2 M = 0) ∧
      (rows ≠ [] → rows ≠ [[]] →
        Size1 M = rows.length ∧ Size2 M = (rows.headD []).length ∧
        ∀ i j, i < Size1 M → j < Size2 M →
          ∃ (row : List α) (x : α), rows[i]? = some row ∧ row[j]? = some x ∧ M.elem i j = .ok x) := by
  cases rows with
  | nil =>
    exact ⟨_, matrixFromList_nil junk, fun _ => ⟨rfl, rfl⟩, fun h => absurd rfl h⟩
  | cons first rest =>
    by_cases h : first = [] ∧ rest = []
    · obtain ⟨h1, h2⟩ := h
      subst h1 h2
      exact ⟨_, matrixFromList_single_empty junk, fun _ => ⟨rfl, rfl⟩,
        fun _ h => absurd rfl h⟩
    · simp only [List.headD_cons] at hrows ⊢
      have hgood : ∀ (i : Nat) (row : List α), (first :: rest)[i]? = some row → row.length = first.length :=
        fun i row hrow => hrows row (List.getElem?_mem hrow)
      obtain ⟨M, hM, hcop⟩ := matrixFromList_all_good junk first rest h hgood
      refine ⟨M, hM, ?_, ?_⟩
      · rintro (hnil | hsingle)
        · cases hnil
        · exfalso
          apply h
          cases hsingle
          exact ⟨rfl, rfl⟩
      · intro _ _
        refine ⟨hcop.1, hcop.2.1, ?_⟩
        intro i j hi hj
        have hi' : i < (first :: rest).length := by
          have := hcop.1
          rw [Size1_dense] at hi
          omega
        have hj' : j < first.length := by
          have := hcop.2.1
          rw [Size2_dense] at hj
          omega
        have hrow : (first :: rest)[i]? = some (first :: rest)[i] :=
          List.getElem?_eq_getElem hi'
        have hlen := hgood i _ hrow
        have hx : ((first :: rest)[i])[j]? = some ((first :: rest)[i])[j] :=
          List.getElem?_eq_getElem (by omega)
        obtain ⟨x, hread, hel⟩ := copied_elem _ _ _ M hcop i j hi' hj'
        rw [readNested_offset _ _ i j _ _ hj' hrow hx] at hread
        cases hread
        exact ⟨_, _, hrow, hx, hel⟩

/-- An instance of C2: the rows `1 2 3` and `4 5 6` give the 2 × 3 matrix with
those rows. -/
theorem matrixFromList_uniform_witness :
    (∀ row, row ∈ sampleRows → row.length = (sampleRows.headD []).length) ∧
    matrixFromList sampleJunk (nested sampleRows) = .ok sampleMatrix ∧
    ∃ M, matrixFromList sampleJunk (nested sampleRows) = .ok M ∧
      ((sampleRows = [] ∨ sampleRows = [[]]) → Size1 M = 0 ∧ Size2 M = 0) ∧
      (sampleRows ≠ [] → sampleRows ≠ [[]] →
        Size1 M = sampleRows.length ∧ Size2 M = (sampleRows.headD []).length ∧
        ∀ i j, i < Size1 M → j < Size2 M →
          ∃ (row : List Int) (x : Int), sampleRows[i]? = some row ∧ row[j]? = some x ∧ M.elem i j = .ok x) :=
  ⟨by decide, by decide, matrixFromList_uniform sampleJunk sampleRows (by decide)⟩

end ListClaims

/-! The specification's properties of the buffer operations -/

section BufferClaims

variable {α : Type}

/-- C3: exporting the matrix `Matrix(2147483648, 0)` and importing the exported
buffer does not return a matrix: the row counter `int i` of the import loop,
compared with the 64-bit `info.shape[0] = 2147483648`, is incremented past
`INT_MAX`. The exported descriptor is the one the specification describes, and
the list constructor, whose counters are `std::size_t`, does build a matrix of
that shape. -/
theorem def_buffer_import_overflow :
    Size1 tallMatrix = 2147483648 ∧ Size2 tallMatrix = 0 ∧
    (def_buffer tallMatrix).ndim = 2 ∧
    (def_buffer tallMatrix).shape = [2147483648, 0] ∧
    (def_buffer tallMatrix).strides = [0, 8] ∧
    (def_buffer tallMatrix).format = formatDouble ∧
    matrixFromBuffer sampleJunk (def_buffer tallMatrix) = .error .intOverflow ∧
    ∃ M, matrixFromList sampleJunk (nested (List.replicate 2147483648 ([] : List Int))) = .ok M ∧
      Size1 M = 2147483648 ∧ Size2 M = 0 := by
  refine ⟨rfl, rfl, rfl, by decide, by decide, rfl, ?_,
    matrixFromList_tall sampleJunk 2147483647 (by norm_num)⟩
  rw [matrixFromBuffer_copy sampleJunk (def_buffer tallMatrix) rfl rfl]
  have h0 : (def_buffer tallMatrix).shape.getD 0 0 = 2147483648 := by decide
  have h1 : (def_buffer tallMatrix).shape.getD 1 0 = 0 := by decide
  rw [h0, h1, copyLoop_overflow _ _ _ _ (by norm_num) (le_refl 0)]
  rfl

/-- C4: the real dense buffer constructor fails with a FormatMismatch error
exactly when the format is not the 64-bit float one or the number of dimensions
is not 2; when it succeeds on a buffer of shape `(r, c)` the result has
`Size1 = r`, `Size2 = c` and element `(i, j)` is the buffer's element at linear
offset `i * c + j`; and it does succeed on a 2-D 64-bit float buffer of shape
`(r, c)` with `r` and `c` below `2^31` whose memory holds `r * c` elements. -/
theorem matrixFromBuffer_contract (junk : Nat → α) (b : BufferInfo α) :
    ((∃ e, matrixFromBuffer junk b = .error e ∧ e.condition = .FormatMismatch) ↔
      (b.format ≠ formatDouble ∨ b.ndim ≠ 2)) ∧
    (∀ (r c : Nat) (M : DenseMatrix α), b.shape = [(r : Int), (c : Int)] →
      matrixFromBuffer junk b = .ok M →
      Size1 M = r ∧ Size2 M = c ∧
      ∀ i j, i < r → j < c → ∃ x, b.ptr[i * c + j]? = some x ∧ M.elem i j = .ok x) ∧
    (∀ (r c : Nat), b.format = formatDouble → b.ndim = 2 → b.shape = [(r : Int), (c : Int)] →
      r < 2 ^ 31 → c < 2 ^ 31 → r * c ≤ b.ptr.length →
      ∃ M, matrixFromBuffer junk b = .ok M) := by
  refine ⟨⟨?_, ?_⟩, ?_, ?_⟩
  · rintro ⟨e, he, hc⟩
    by_contra hcon
    push_neg at hcon
    rw [matrixFromBuffer_copy junk b hcon.1 hcon.2] at he
    cases hl : copyLoop (readDouble b.ptr) (b.shape.getD 0 0) (b.shape.getD 1 0)
        (DenseMatrix.create (toSizeType (b.shape.getD 0 0)) (toSizeType (b.shape.getD 1 0))
          junk) with
    | ok st => rw [hl] at he; cases he
    | error e' =>
      rw [hl] at he
      cases he
      rcases copyLoop_error _ _ _ _ _ hl with ⟨k, hk⟩ | hbad | hover
      · rw [readDouble_error _ _ _ hk] at hc
        cases hc
      · rw [hbad] at hc
        cases hc
      · rw [hover] at hc
        cases hc
  · intro h
    by_cases hf : b.format = formatDouble
    · have hn : b.ndim ≠ 2 := by
        rcases h with h | h
        · exact absurd hf h
        · exact h
      exact ⟨_, matrixFromBuffer_ndim junk b hf hn, rfl⟩
    · exact ⟨_, matrixFromBuffer_format junk b hf, rfl⟩
  · intro r c M hshape hok
    by_cases hf : b.format = formatDouble
    swap
    · rw [matrixFromBuffer_format junk b hf] at hok
      cases hok
    by_cases hn : b.ndim = 2
    swap
    · rw [matrixFromBuffer_ndim junk b hf hn] at hok
      cases hok
    rw [matrixFromBuffer_shape junk b r c hf hn hshape] at hok
    cases hl : copyLoop (readDouble b.ptr) (r : Int) (c : Int) (DenseMatrix.create r c junk) with
    | error e => rw [hl] at hok; cases hok
    | ok st =>
      rw [hl] at hok
      cases hok
      have hcop := copyLoop_partial (readDouble b.ptr) r c _ st rfl rfl hl
      refine ⟨hcop.1, hcop.2.1, ?_⟩
      intro i j hi hj
      obtain ⟨x, hx, hel⟩ := copied_elem _ r c st.1 hcop i j hi hj
      exact ⟨x, (readDouble_ok b.ptr _ x).1 hx, hel⟩
  · intro r c hf hn hshape hr hc hlen
    rw [matrixFromBuffer_shape junk b r c hf hn hshape]
    obtain ⟨st, hst, _⟩ := copyLoop_total (readDouble b.ptr) r c hr hc
      (DenseMatrix.create r c junk) rfl rfl (fun k hk => readDouble_lt b.ptr k (by omega))
    rw [hst]
    exact ⟨st.1, rfl⟩

/-- An instance of C4: the 2 × 3 buffer over `1 2 3 4 5 6` is imported as the
matrix with those rows. -/
theorem matrixFromBuffer_contract_witness :
    sampleBuffer.shape = [((2 : Nat) : Int), ((3 : Nat) : Int)] ∧
    matrixFromBuffer sampleJunk sampleBuffer = .ok sampleMatrix ∧
    (Size1 sampleMatrix = 2 ∧ Size2 sampleMatrix = 3 ∧
      ∀ i j, i < 2 → j < 3 →
        ∃ x, sampleBuffer.ptr[i * 3 + j]? = some x ∧ sampleMatrix.elem i j = .ok x) :=
  ⟨rfl, by decide,
    (matrixFromBuffer_contract sampleJunk sampleBuffer).2.1 2 3 sampleMatrix rfl (by decide)⟩

/-- C5: on the 2-D buffer of 64-bit floats of shape `(2147483648, 0)` the complex
dense buffer constructor does not return a matrix: the row counter `int i` of
its copy loop, compared with the 64-bit `info.shape[0] = 2147483648`, is
incremented past `INT_MAX`. -/
theorem complexMatrixFromBuffer_overflow :
    tallBuffer.ndim = 2 ∧ tallBuffer.shape = [2147483648, 0] ∧
    tallBuffer.format = formatDouble ∧
    complexMatrixFromBuffer sampleComplexJunk tallBuffer = .error .intOverflow := by
  refine ⟨rfl, rfl, rfl, ?_⟩
  rw [complexMatrixFromBuffer_double sampleComplexJunk tallBuffer rfl rfl]
  have h0 : tallBuffer.shape.getD 0 0 = 2147483648 := rfl
  have h1 : tallBuffer.shape.getD 1 0 = 0 := rfl
  rw [h0, h1, copyLoop_overflow _ _ _ _ (by norm_num) (le_refl 0)]
  rfl

end BufferClaims

/-! The compressed matrix -/

section Compressed

variable {β : Type}

theorem Size1_compressed (m : CompressedMatrix β) : Size1 m = m.size1 := rfl

theorem Size2_compressed (m : CompressedMatrix β) : Size2 m = m.size2 := rfl

theorem compressed_elem_out_of_range [Zero β] (m : CompressedMatrix β) (i j : Nat)
    (h : ¬ (i < m.size1 ∧ j < m.size2)) : m.elem i j = .error .badIndex := by
  unfold CompressedMatrix.elem
  rw [if_neg h]

theorem compressed_elem_in_range [Zero β] (m : CompressedMatrix β) (i j : Nat)
    (hi : i < m.size1) (hj : j < m.size2) : m.elem i j = .ok (m.lookup i j) := by
  unfold CompressedMatrix.elem
  rw [if_pos ⟨hi, hj⟩]

theorem compressed_assign_out_of_range (m : CompressedMatrix β) (i j : Nat) (v : β)
    (h : ¬ (i < m.size1 ∧ j < m.size2)) : m.assign i j v = .error .badIndex := by
  unfold CompressedMatrix.assign
  rw [if_neg h]

/-- The first place of a run of consecutive places where a test holds. -/
theorem find_range' (p : Nat → Bool) (lo n j : Nat) (hj : j < n) (hp : p (lo + j) = true)
    (hnot : ∀ t, t < j → p (lo + t) = false) :
    (List.range' lo n).find? p = some (lo + j) := by
  induction j generalizing lo n with
  | zero =>
    cases n with
    | zero => omega
    | succ n =>
      rw [List.range'_succ, List.find?_cons]
      simp only [Nat.add_zero] at hp
      rw [hp]
      rfl
  | succ j ih =>
    cases n with
    | zero => omega
    | succ n =>
      rw [List.range'_succ, List.find?_cons]
      have h0 := hnot 0 (Nat.succ_pos j)
      simp only [Nat.add_zero] at h0
      rw [h0]
      have hrec := ih (lo + 1) n (by omega)
        (by rw [show lo + 1 + j = lo + (j + 1) by omega]; exact hp)
        (fun t ht => by
          rw [show lo + 1 + t = lo + (t + 1) by omega]
          exact hnot (t + 1) (by omega))
      rw [show lo + (j + 1) = lo + 1 + j by omega]
      exact hrec

/-- The matrix that stores `f` at every coordinate reads as `f`. -/
theorem ofFn_lookup [Zero β] (r c : Nat) (f : Nat → Nat → β) (i j : Nat)
    (hi : i < r) (hj : j < c) : (CompressedMatrix.ofFn r c f).lookup i j = f i j := by
  have hlt : i * c + j < r * c := offset_lt hi hj
  have hbegin : (CompressedMatrix.ofFn r c f).rowBegin i = i * c := by
    simp [CompressedMatrix.rowBegin, CompressedMatrix.ofFn, List.getD_eq_getElem?_getD,
      List.getElem?_range (show i < r + 1 by omega)]
  have hend : (CompressedMatrix.ofFn r c f).rowEnd i = (i + 1) * c := by
    simp [CompressedMatrix.rowEnd, CompressedMatrix.ofFn, List.getD_eq_getElem?_getD,
      List.getElem?_range (show i + 1 < r + 1 by omega)]
  have hcol : ∀ t, t < c →
      (CompressedMatrix.ofFn r c f).index2_data[i * c + t]? = some t := by
    intro t ht
    have hlt' : i * c + t < r * c := offset_lt hi ht
    simp [CompressedMatrix.ofFn, List.getElem?_range hlt', offset_mod ht]
  have hpos : (CompressedMatrix.ofFn r c f).position i j = some (i * c + j) := by
    unfold CompressedMatrix.position
    rw [hbegin, hend, show (i + 1) * c - i * c = c by rw [Nat.succ_mul]; omega]
    apply find_range' _ (i * c) c j hj
    · rw [hcol j hj]
      simp
    · intro t ht
      rw [hcol t (by omega)]
      simp
      omega
  unfold CompressedMatrix.lookup
  rw [hpos]
  simp [CompressedMatrix.ofFn, List.getD_eq_getElem?_getD, List.getElem?_range hlt,
    offset_div hj, offset_mod hj]

theorem compressed_plus_ok [Zero β] [Add β] (A B : CompressedMatrix β)
    (h : A.size1 = B.size1 ∧ A.size2 = B.size2) :
    A.plus B = .ok (CompressedMatrix.ofFn A.size1 A.size2
      (fun i j => A.lookup i j + B.lookup i j)) := by
  unfold CompressedMatrix.plus
  rw [if_pos h]

theorem compressed_minus_ok [Zero β] [Sub β] (A B : CompressedMatrix β)
    (h : A.size1 = B.size1 ∧ A.size2 = B.size2) :
    A.minus B = .ok (CompressedMatrix.ofFn A.size1 A.size2
      (fun i j => A.lookup i j - B.lookup i j)) := by
  unfold CompressedMatrix.minus
  rw [if_pos h]

end Compressed

/-! The generic interface -/

section InterfaceClaims

variable {α β : Type}

theorem toSizeType_neg (k : Int) (hk : IsInt k) (hneg : k < 0) :
    2 ^ 64 - 2 ^ 31 ≤ toSizeType k := by
  unfold IsInt at hk
  unfold toSizeType
  omega

theorem toSizeType_nonneg (k : Int) (hk : IsInt k) (hpos : 0 ≤ k) :
    (toSizeType k : Int) = k := by
  unfold IsInt at hk
  unfold toSizeType
  omega

/-- At natural-number indices that an `int` can hold, `__getitem__` is the
element read of the matrix class. -/
theorem getitem_eq_elem (A : DenseMatrix α) (i j : Nat) (hi : i < 2 ^ 31) (hj : j < 2 ^ 31) :
    getitem A ((i : Int), (j : Int)) = A.elem i j := by
  have h1 : toSizeType (i : Int) = i := by unfold toSizeType; omega
  have h2 : toSizeType (j : Int) = j := by unfold toSizeType; omega
  show A.elem (toSizeType (i : Int)) (toSizeType (j : Int)) = _
  rw [h1, h2]

/-- An `int` index outside a shape with at most `2^64 - 2^31` rows and columns
is, as a `size_type`, outside the shape. -/
theorem toSizeType_out_of_range (size1 size2 : Nat) (row col : Int)
    (hrow : IsInt row) (hcol : IsInt col)
    (h1 : size1 ≤ 2 ^ 64 - 2 ^ 31) (h2 : size2 ≤ 2 ^ 64 - 2 ^ 31)
    (hout : ¬ (0 ≤ row ∧ row < size1 ∧ 0 ≤ col ∧ col < size2)) :
    ¬ (toSizeType row < size1 ∧ toSizeType col < size2) := by
  rintro ⟨hi, hj⟩
  have hr : 0 ≤ row := by
    by_contra hneg
    have := toSizeType_neg row hrow (by omega)
    omega
  have hc : 0 ≤ col := by
    by_contra hneg
    have := toSizeType_neg col hcol (by omega)
    omega
  have hr2 := toSizeType_nonneg row hrow hr
  have hc2 := toSizeType_nonneg col hcol hc
  apply hout
  omega

/-- A write that fails leaves the matrix as it was. -/
theorem setitem_error {M γ : Type} [MatrixAccess M γ] (self : M) (index : Int × Int)
    (value : γ) (e : Error)
    (h : MatrixAccess.assign self (toSizeType index.1) (toSizeType index.2) value = .error e) :
    setitem self index value = (self, .error e) := by
  unfold setitem
  simp only [h]

/-- C6, as it holds: on a matrix of any bound class with at most `2^64 - 2^31`
rows and columns, `__getitem__` and `__setitem__` with a pair of `int`s
`(row, col)` fail with an OutOfRange error whenever `row` is not in `[0, rows)`
or `col` is not in `[0, cols)`, negative indices included, and the failing
`__setitem__` leaves the matrix unchanged. -/
theorem getitem_setitem_out_of_range [Zero β] :
    (∀ (A : DenseMatrix α) (row col : Int) (value : α), IsInt row → IsInt col →
      Size1 A ≤ 2 ^ 64 - 2 ^ 31 → Size2 A ≤ 2 ^ 64 - 2 ^ 31 →
      ¬ (0 ≤ row ∧ row < Size1 A ∧ 0 ≤ col ∧ col < Size2 A) →
      (∃ e, getitem A (row, col) = .error e ∧ e.condition = .OutOfRange) ∧
      (∃ e, setitem A (row, col) value = (A, .error e) ∧ e.condition = .OutOfRange)) ∧
    (∀ (A : CompressedMatrix β) (row col : Int) (value : β), IsInt row → IsInt col →
      Size1 A ≤ 2 ^ 64 - 2 ^ 31 → Size2 A ≤ 2 ^ 64 - 2 ^ 31 →
      ¬ (0 ≤ row ∧ row < Size1 A ∧ 0 ≤ col ∧ col < Size2 A) →
      (∃ e, getitem A (row, col) = .error e ∧ e.condition = .OutOfRange) ∧
      (∃ e, setitem A (row, col) value = (A, .error e) ∧ e.condition = .OutOfRange)) := by
  constructor
  · intro A row col value hrow hcol h1 h2 hout
    have h := toSizeType_out_of_range A.size1 A.size2 row col hrow hcol h1 h2 hout
    refine ⟨⟨.badIndex, elem_out_of_range A _ _ h, rfl⟩, ⟨.badIndex, ?_, rfl⟩⟩
    exact setitem_error A (row, col) value _ (assign_out_of_range A _ _ value h)
  · intro A row col value hrow hcol h1 h2 hout
    have h := toSizeType_out_of_range A.size1 A.size2 row col hrow hcol h1 h2 hout
    refine ⟨⟨.badIndex, compressed_elem_out_of_range A _ _ h, rfl⟩, ⟨.badIndex, ?_, rfl⟩⟩
    exact setitem_error A (row, col) value _ (compressed_assign_out_of_range A _ _ value h)

/-- Instances of C6 as it holds: on the dense and on the compressed 2 × 3 matrix
the index `(1, -1)` fails, and so does the index `(2, 0)`; the index `(1, 2)`
reads the element. -/
theorem getitem_setitem_out_of_range_witness :
    (IsInt 1 ∧ IsInt (-1) ∧ Size1 sampleMatrix ≤ 2 ^ 64 - 2 ^ 31 ∧
      Size2 sampleMatrix ≤ 2 ^ 64 - 2 ^ 31 ∧
      ¬ ((0 : Int) ≤ 1 ∧ (1 : Int) < Size1 sampleMatrix ∧ (0 : Int) ≤ -1 ∧
        (-1 : Int) < Size2 sampleMatrix) ∧
      (∃ e, getitem sampleMatrix (1, -1) = .error e ∧ e.condition = .OutOfRange) ∧
      (∃ e, setitem sampleMatrix (1, -1) 9 = (sampleMatrix, .error e) ∧
        e.condition = .OutOfRange)) ∧
    (IsInt 2 ∧ IsInt 0 ∧ Size1 sampleCompressed ≤ 2 ^ 64 - 2 ^ 31 ∧
      Size2 sampleCompressed ≤ 2 ^ 64 - 2 ^ 31 ∧
      ¬ ((0 : Int) ≤ 2 ∧ (2 : Int) < Size1 sampleCompressed ∧ (0 : Int) ≤ 0 ∧
        (0 : Int) < Size2 sampleCompressed) ∧
      (∃ e, getitem sampleCompressed (2, 0) = .error e ∧ e.condition = .OutOfRange) ∧
      (∃ e, setitem sampleCompressed (2, 0) 9 = (sampleCompressed, .error e) ∧
        e.condition = .OutOfRange)) ∧
    getitem sampleMatrix (1, -1) = .error .badIndex ∧
    getitem sampleMatrix (1, 2) = .ok 6 ∧
    getitem sampleCompressed (1, -1) = .error .badIndex ∧
    getitem sampleCompressed (1, 2) = .ok 7 :=
  ⟨⟨by decide, by decide, by decide, by decide, by decide,
      (@getitem_setitem_out_of_range Int Int _).1 sampleMatrix 1 (-1) 9
        (by decide) (by decide) (by decide) (by decide) (by decide)⟩,
    ⟨by decide, by decide, by decide, by decide, by decide,
      (@getitem_setitem_out_of_range Int Int _).2 sampleCompressed 2 0 9
        (by decide) (by decide) (by decide) (by decide) (by decide)⟩,
    by decide, by decide, by decide, by decide⟩

/-- C6 as stated fails: on the compressed matrix with one row and `2^64 - 1`
columns the index `(0, -2)`, whose column is negative, is not refused:
`__getitem__` returns the element of column `2^64 - 2`, the last but one, and
`__setitem__` writes it. -/
theorem getitem_negative_index_accepted :
    IsInt 0 ∧ IsInt (-2) ∧
    ¬ ((0 : Int) ≤ 0 ∧ (0 : Int) < Size1 wideCompressed ∧ (0 : Int) ≤ -2 ∧
      (-2 : Int) < Size2 wideCompressed) ∧
    getitem wideCompressed (0, -2) = .ok 0 ∧
    (setitem wideCompressed (0, -2) 9).2 = .ok () ∧
    (setitem wideCompressed (0, -2) 9).1.elem 0 18446744073709551614 = .ok 9 ∧
    ¬ (∃ e, getitem wideCompressed (0, -2) = .error e ∧ e.condition = .OutOfRange) := by
  refine ⟨by decide, by decide, by decide, by decide, by decide, by decide, ?_⟩
  rintro ⟨e, he, _⟩
  have hok : getitem wideCompressed (0, -2) = .ok 0 := by decide
  rw [hok] at he
  cases he

/-- C7: on a matrix of any bound class, after `Resize(rows, cols)` the sizes are
`rows` and `cols`, and when `(rows, cols)` is the current shape the matrix is
unchanged. -/
theorem Resize_contract [Zero β] :
    (∀ (A : DenseMatrix α) (rows cols : Nat) (junk : Nat → α),
      Size1 (Resize A rows cols junk) = rows ∧
      Size2 (Resize A rows cols junk) = cols ∧
      (rows = Size1 A → cols = Size2 A →
        Resize A rows cols junk = A ∧
        ∀ i j, (Resize A rows cols junk).elem i j = A.elem i j)) ∧
    (∀ (A : CompressedMatrix β) (rows cols : Nat) (junk : Nat → β),
      Size1 (Resize A rows cols junk) = rows ∧
      Size2 (Resize A rows cols junk) = cols ∧
      (rows = Size1 A → cols = Size2 A →
        Resize A rows cols junk = A ∧
        ∀ i j, (Resize A rows cols junk).elem i j = A.elem i j)) := by
  constructor
  · intro A rows cols junk
    by_cases h : A.size1 ≠ rows ∨ A.size2 ≠ cols
    · have hres : Resize A rows cols junk = A.resize rows cols junk := if_pos h
      rw [hres]
      refine ⟨rfl, rfl, ?_⟩
      intro h1 h2
      exfalso
      rcases h with h | h
      · exact h h1.symm
      · exact h h2.symm
    · have hres : Resize A rows cols junk = A := if_neg h
      rw [hres]
      push_neg at h
      exact ⟨h.1, h.2, fun _ _ => ⟨rfl, fun _ _ => rfl⟩⟩
  · intro A rows cols junk
    by_cases h : A.size1 ≠ rows ∨ A.size2 ≠ cols
    · have hres : Resize A rows cols junk = A.resize rows cols := if_pos h
      rw [hres]
      refine ⟨rfl, rfl, ?_⟩
      intro h1 h2
      exfalso
      rcases h with h | h
      · exact h h1.symm
      · exact h h2.symm
    · have hres : Resize A rows cols junk = A := if_neg h
      rw [hres]
      push_neg at h
      exact ⟨h.1, h.2, fun _ _ => ⟨rfl, fun _ _ => rfl⟩⟩

/-- Instances of C7: resizing the dense and the compressed 2 × 3 matrix to 2 × 3
leaves them as they are, and resizing them to 3 × 1 gives 3 × 1 matrices. -/
theorem Resize_contract_witness :
    (2 = Size1 sampleMatrix ∧ 3 = Size2 sampleMatrix ∧
      Resize sampleMatrix 2 3 sampleJunk = sampleMatrix ∧
      ∀ i j, (Resize sampleMatrix 2 3 sampleJunk).elem i j = sampleMatrix.elem i j) ∧
    (2 = Size1 sampleCompressed ∧ 3 = Size2 sampleCompressed ∧
      Resize sampleCompressed 2 3 sampleJunk = sampleCompressed ∧
      ∀ i j, (Resize sampleCompressed 2 3 sampleJunk).elem i j = sampleCompressed.elem i j) ∧
    Size1 (Resize sampleMatrix 3 1 sampleJunk) = 3 ∧
    Size2 (Resize sampleMatrix 3 1 sampleJunk) = 1 ∧
    Size1 (Resize sampleCompressed 3 1 sampleJunk) = 3 ∧
    Size2 (Resize sampleCompressed 3 1 sampleJunk) = 1 :=
  ⟨⟨rfl, rfl,
      ((@Resize_contract Int Int _).1 sampleMatrix 2 3 sampleJunk).2.2 rfl rfl⟩,
    ⟨rfl, rfl,
      ((@Resize_contract Int Int _).2 sampleCompressed 2 3 sampleJunk).2.2 rfl rfl⟩,
    by decide, by decide, by decide, by decide⟩

theorem plus_elem [Add α] (A B S : DenseMatrix α) (h : A.plus B = .ok S) :
    S.size1 = A.size1 ∧ S.size2 = A.size2 ∧
      S.data = List.zipWith (fun a b => a + b) A.data B.data := by
  unfold DenseMatrix.plus at h
  split at h
  · cases h
    exact ⟨rfl, rfl, rfl⟩
  · cases h

theorem minus_elem [Sub α] (A B D : DenseMatrix α) (h : A.minus B = .ok D) :
    D.size1 = A.size1 ∧ D.size2 = A.size2 ∧
      D.data = List.zipWith (fun a b => a - b) A.data B.data := by
  unfold DenseMatrix.minus at h
  split at h
  · cases h
    exact ⟨rfl, rfl, rfl⟩
  · cases h

/-- C8: on matrices of any bound class, `__add__` and `__sub__` fail with a
ShapeMismatch error whenever the operands differ in `Size1` or in `Size2`, and
succeed with the elementwise result, of the operands' shape, when the shapes
are the same. -/
theorem add_sub_contract [Add α] [Sub α] [Zero β] [Add β] [Sub β] :
    (∀ (A B : DenseMatrix α),
      ((Size1 A ≠ Size1 B ∨ Size2 A ≠ Size2 B) →
        (∃ e, add A B = .error e ∧ e.condition = .ShapeMismatch) ∧
        (∃ e, sub A B = .error e ∧ e.condition = .ShapeMismatch)) ∧
      (Size1 A = Size1 B → Size2 A = Size2 B →
        ∃ S D, add A B = .ok S ∧ sub A B = .ok D ∧
          Size1 S = Size1 A ∧ Size2 S = Size2 A ∧ Size1 D = Size1 A ∧ Size2 D = Size2 A ∧
          ∀ i j, i < Size1 A → j < Size2 A →
            ∃ a b, A.elem i j = .ok a ∧ B.elem i j = .ok b ∧
              S.elem i j = .ok (a + b) ∧ D.elem i j = .ok (a - b))) ∧
    (∀ (A B : CompressedMatrix β),
      ((Size1 A ≠ Size1 B ∨ Size2 A ≠ Size2 B) →
        (∃ e, add A B = .error e ∧ e.condition = .ShapeMismatch) ∧
        (∃ e, sub A B = .error e ∧ e.condition = .ShapeMismatch)) ∧
      (Size1 A = Size1 B → Size2 A = Size2 B →
        ∃ S D, add A B = .ok S ∧ sub A B = .ok D ∧
          Size1 S = Size1 A ∧ Size2 S = Size2 A ∧ Size1 D = Size1 A ∧ Size2 D = Size2 A ∧
          ∀ i j, i < Size1 A → j < Size2 A →
            ∃ a b, A.elem i j = .ok a ∧ B.elem i j = .ok b ∧
              S.elem i j = .ok (a + b) ∧ D.elem i j = .ok (a - b))) := by
  constructor
  · intro A B
    simp only [Size1_dense, Size2_dense]
    have hadd : add A B = A.plus B := rfl
    have hsub : sub A B = A.minus B := rfl
    rw [hadd, hsub]
    constructor
    · intro h
      have hn : ¬ (A.size1 = B.size1 ∧ A.size2 = B.size2) := by
        rintro ⟨h1, h2⟩
        rcases h with h | h
        · exact h h1
        · exact h h2
      constructor
      · refine ⟨.badSize, ?_, rfl⟩
        unfold DenseMatrix.plus
        rw [dif_neg hn]
      · refine ⟨.badSize, ?_, rfl⟩
        unfold DenseMatrix.minus
        rw [dif_neg hn]
    · intro h1 h2
      have hS : ∃ S, A.plus B = .ok S := by
        unfold DenseMatrix.plus
        rw [dif_pos ⟨h1, h2⟩]
        exact ⟨_, rfl⟩
      have hD : ∃ D, A.minus B = .ok D := by
        unfold DenseMatrix.minus
        rw [dif_pos ⟨h1, h2⟩]
        exact ⟨_, rfl⟩
      obtain ⟨S, hS⟩ := hS
      obtain ⟨D, hD⟩ := hD
      obtain ⟨s1, s2, sd⟩ := plus_elem A B S hS
      obtain ⟨d1, d2, dd⟩ := minus_elem A B D hD
      refine ⟨S, D, hS, hD, s1, s2, d1, d2, ?_⟩
      intro i j hi hj
      obtain ⟨a, ha, hae⟩ := elem_in_range A i j hi hj
      obtain ⟨b, hb, hbe⟩ := elem_in_range B i j (by omega) (by omega)
      refine ⟨a, b, hae, hbe, ?_, ?_⟩
      · apply elem_of_data S i j _ (by omega) (by omega)
        rw [sd, s2, List.getElem?_zipWith, ha]
        rw [h2] at ha ⊢
        rw [hb]
      · apply elem_of_data D i j _ (by omega) (by omega)
        rw [dd, d2, List.getElem?_zipWith, ha]
        rw [h2] at ha ⊢
        rw [hb]
  · intro A B
    simp only [Size1_compressed, Size2_compressed]
    have hadd : add A B = A.plus B := rfl
    have hsub : sub A B = A.minus B := rfl
    rw [hadd, hsub]
    constructor
    · intro h
      have hn : ¬ (A.size1 = B.size1 ∧ A.size2 = B.size2) := by
        rintro ⟨h1, h2⟩
        rcases h with h | h
        · exact h h1
        · exact h h2
      constructor
      · refine ⟨.badSize, ?_, rfl⟩
        unfold CompressedMatrix.plus
        rw [if_neg hn]
      · refine ⟨.badSize, ?_, rfl⟩
        unfold CompressedMatrix.minus
        rw [if_neg hn]
    · intro h1 h2
      refine ⟨_, _, compressed_plus_ok A B ⟨h1, h2⟩, compressed_minus_ok A B ⟨h1, h2⟩,
        rfl, rfl, rfl, rfl, ?_⟩
      intro i j hi hj
      refine ⟨A.lookup i j, B.lookup i j, compressed_elem_in_range A i j hi hj,
        compressed_elem_in_range B i j (by omega) (by omega), ?_, ?_⟩
      · rw [compressed_elem_in_range (CompressedMatrix.ofFn A.size1 A.size2 _) i j hi hj,
          ofFn_lookup _ _ _ i j hi hj]
      · rw [compressed_elem_in_range (CompressedMatrix.ofFn A.size1 A.size2 _) i j hi hj,
          ofFn_lookup _ _ _ i j hi hj]

/-- Instances of C8: two dense and two compressed 2 × 3 matrices add and
subtract elementwise; a 2 × 3 and a 2 × 2 matrix do not. -/
theorem add_sub_contract_witness :
    (Size1 sampleMatrix = Size1 sampleMatrix2 ∧ Size2 sampleMatrix = Size2 sampleMatrix2 ∧
      ∃ S D, add sampleMatrix sampleMatrix2 = .ok S ∧ sub sampleMatrix sampleMatrix2 = .ok D ∧
        Size1 S = Size1 sampleMatrix ∧ Size2 S = Size2 sampleMatrix ∧
        Size1 D = Size1 sampleMatrix ∧ Size2 D = Size2 sampleMatrix ∧
        ∀ i j, i < Size1 sampleMatrix → j < Size2 sampleMatrix →
          ∃ a b, sampleMatrix.elem i j = .ok a ∧ sampleMatrix2.elem i j = .ok b ∧
            S.elem i j = .ok (a + b) ∧ D.elem i j = .ok (a - b)) ∧
    (Size1 sampleCompressed = Size1 sampleCompressed2 ∧
      Size2 sampleCompressed = Size2 sampleCompressed2 ∧
      ∃ S D, add sampleCompressed sampleCompressed2 = .ok S ∧
        sub sampleCompressed sampleCompressed2 = .ok D ∧
        Size1 S = Size1 sampleCompressed ∧ Size2 S = Size2 sampleCompressed ∧
        Size1 D = Size1 sampleCompressed ∧ Size2 D = Size2 sampleCompressed ∧
        ∀ i j, i < Size1 sampleCompressed → j < Size2 sampleCompressed →
          ∃ a b, sampleCompressed.elem i j = .ok a ∧ sampleCompressed2.elem i j = .ok b ∧
            S.elem i j = .ok (a + b) ∧ D.elem i j = .ok (a - b)) ∧
    ((Size1 sampleMatrix ≠ Size1 sampleSquare ∨ Size2 sampleMatrix ≠ Size2 sampleSquare) ∧
      (∃ e, add sampleMatrix sampleSquare = .error e ∧ e.condition = .ShapeMismatch) ∧
      (∃ e, sub sampleMatrix sampleSquare = .error e ∧ e.condition = .ShapeMismatch)) ∧
    ((Size1 sampleCompressed ≠ Size1 sampleCompressedSquare ∨
        Size2 sampleCompressed ≠ Size2 sampleCompressedSquare) ∧
      (∃ e, add sampleCompressed sampleCompressedSquare = .error e ∧
        e.condition = .ShapeMismatch) ∧
      (∃ e, sub sampleCompressed sampleCompressedSquare = .error e ∧
        e.condition = .ShapeMismatch)) ∧
    (add sampleMatrix sampleMatrix2).map (fun m => m.data) = .ok [11, 22, 33, 44, 55, 66] ∧
    (add sampleCompressed sampleCompressed2 >>= fun m => m.elem 1 2) = .ok 9 :=
  ⟨⟨rfl, rfl, ((@add_sub_contract Int Int _ _ _ _ _).1 sampleMatrix sampleMatrix2).2 rfl rfl⟩,
    ⟨rfl, rfl,
      ((@add_sub_contract Int Int _ _ _ _ _).2 sampleCompressed sampleCompressed2).2 rfl rfl⟩,
    ⟨by decide,
      ((@add_sub_contract Int Int _ _ _ _ _).1 sampleMatrix sampleSquare).1 (by decide)⟩,
    ⟨by decide,
      ((@add_sub_contract Int Int _ _ _ _ _).2 sampleCompressed sampleCompressedSquare).1
        (by decide)⟩,
    by decide, by decide⟩

end InterfaceClaims

/-! Products and the identity -/

section ProductClaims

variable {α : Type}

theorem mapM_exists {β γ : Type} (f : β → Except Error γ) (l : List β)
    (h : ∀ x, x ∈ l → ∃ y, f x = .ok y) :
    ∃ ys, l.mapM f = .ok ys ∧ ys.length = l.length ∧
      ∀ k (hk : k < l.length), ∃ y, f (l.get ⟨k, hk⟩) = .ok y ∧ ys[k]? = some y := by
  induction l with
  | nil => exact ⟨[], rfl, rfl, fun k hk => absurd hk (Nat.not_lt_zero k)⟩
  | cons a l ih =>
    obtain ⟨y, hy⟩ := h a (List.mem_cons_self a l)
    obtain ⟨ys, hys, hlen, hget⟩ := ih (fun x hx => h x (List.mem_cons_of_mem a hx))
    refine ⟨y :: ys, ?_, by simp [hlen], ?_⟩
    · rw [List.mapM_cons, hy, hys]
      rfl
    · intro k hk
      cases k with
      | zero => exact ⟨y, hy, by simp⟩
      | succ k =>
        obtain ⟨y', hy', hk'⟩ := hget k (by simpa using hk)
        exact ⟨y', hy', by simpa using hk'⟩

/-- Row `i` of the product with a vector of three components. -/
theorem prod_row [Zero α] [Add α] [Mul α] (A : DenseMatrix α) (v : Array1d3 α) (i : Nat)
    (h3 : A.size2 = 3) (hi : i < A.size1) :
    ∃ a0 a1 a2, A.elem i 0 = .ok a0 ∧ A.elem i 1 = .ok a1 ∧ A.elem i 2 = .ok a2 ∧
      forLoop A.size2 (fun j t => do
        let a ← A.elem i j
        match v.toList[j]? with
        | some x => pure (t + a * x)
        | none => throw Error.badIndex) 0 = .ok (0 + a0 * v.x + a1 * v.y + a2 * v.z) := by
  obtain ⟨a0, _, h0⟩ := elem_in_range A i 0 hi (by omega)
  obtain ⟨a1, _, h1⟩ := elem_in_range A i 1 hi (by omega)
  obtain ⟨a2, _, h2⟩ := elem_in_range A i 2 hi (by omega)
  refine ⟨a0, a1, a2, h0, h1, h2, ?_⟩
  rw [h3, forLoop_succ, forLoop_succ, forLoop_succ, forLoop_zero]
  simp [h0, h1, h2, Array1d3.toList, bind, Except.bind, pure, Except.pure]

/-- C9: the product of a real dense matrix with a fixed-length-3 vector fails
with a ShapeMismatch error exactly when `Size2` is not 3; when `Size2` is 3 it
returns a vector of length `Size1` whose entry `i` is the sum over `j` in
`0, 1, 2` of `A(i, j) * v(j)`, accumulated from zero in that order. -/
theorem mulArray3_contract [Zero α] [Add α] [Mul α] (A : DenseMatrix α) (v : Array1d3 α) :
    ((∃ e, mulArray3 A v = .error e ∧ e.condition = .ShapeMismatch) ↔ Size2 A ≠ 3) ∧
    (Size2 A = 3 →
      ∃ y, mulArray3 A v = .ok y ∧ y.length = Size1 A ∧
        ∀ i, i < Size1 A →
          ∃ a0 a1 a2, A.elem i 0 = .ok a0 ∧ A.elem i 1 = .ok a1 ∧ A.elem i 2 = .ok a2 ∧
            y[i]? = some (0 + a0 * v.x + a1 * v.y + a2 * v.z)) := by
  simp only [Size1_dense, Size2_dense]
  have hok : A.size2 = 3 →
      ∃ y, mulArray3 A v = .ok y ∧ y.length = A.size1 ∧
        ∀ i, i < A.size1 →
          ∃ a0 a1 a2, A.elem i 0 = .ok a0 ∧ A.elem i 1 = .ok a1 ∧ A.elem i 2 = .ok a2 ∧
            y[i]? = some (0 + a0 * v.x + a1 * v.y + a2 * v.z) := by
    intro h3
    have hlen : ¬ (A.size2 ≠ v.toList.length) := by simp [Array1d3.toList, h3]
    have hmul : mulArray3 A v = A.prod v.toList := by
      simp [mulArray3, h3, bind, Except.bind, pure, Except.pure]
    rw [hmul]
    unfold DenseMatrix.prod
    rw [if_neg hlen]
    obtain ⟨ys, hys, hl, hget⟩ := mapM_exists (fun i =>
        forLoop A.size2 (fun j t => do
          let a ← A.elem i j
          match v.toList[j]? with
          | some x => pure (t + a * x)
          | none => throw Error.badIndex) 0) (List.range A.size1)
      (fun i hi => by
        obtain ⟨a0, a1, a2, _, _, _, hrow⟩ := prod_row A v i h3 (List.mem_range.1 hi)
        exact ⟨_, hrow⟩)
    refine ⟨ys, hys, by simpa using hl, ?_⟩
    intro i hi
    obtain ⟨y, hy, hyi⟩ := hget i (by simpa using hi)
    obtain ⟨a0, a1, a2, h0, h1, h2, hrow⟩ := prod_row A v i h3 hi
    refine ⟨a0, a1, a2, h0, h1, h2, ?_⟩
    simp only [List.get_eq_getElem, List.getElem_range] at hy
    rw [hrow] at hy
    cases hy
    exact hyi
  refine ⟨⟨?_, ?_⟩, hok⟩
  · rintro ⟨e, he, _⟩ h3
    obtain ⟨y, hy, _⟩ := hok h3
    rw [hy] at he
    cases he
  · intro h3
    refine ⟨.size2IsNot3, ?_, rfl⟩
    simp [mulArray3, h3, bind, Except.bind, throw, throwThe, MonadExceptOf.throw]

/-- Instances of C9: the 2 × 3 matrix times `(1, 0, -1)` is `(-2, -2)`, and the
2 × 2 matrix has no such product. -/
theorem mulArray3_contract_witness :
    (Size2 sampleMatrix = 3 ∧
      ∃ y, mulArray3 sampleMatrix sampleArray = .ok y ∧ y.length = Size1 sampleMatrix ∧
        ∀ i, i < Size1 sampleMatrix →
          ∃ a0 a1 a2, sampleMatrix.elem i 0 = .ok a0 ∧ sampleMatrix.elem i 1 = .ok a1 ∧
            sampleMatrix.elem i 2 = .ok a2 ∧
            y[i]? = some (0 + a0 * sampleArray.x + a1 * sampleArray.y + a2 * sampleArray.z)) ∧
    mulArray3 sampleMatrix sampleArray = .ok [-2, -2] ∧
    mulArray3 sampleSquare sampleArray = .error .size2IsNot3 :=
  ⟨⟨rfl, (mulArray3_contract sampleMatrix sampleArray).2 rfl⟩, by decide, by decide⟩

/-- C10: on a square `n × n` matrix `fill_identity` succeeds, the shape is
still `n × n`, and element `(i, j)` is one when `i = j` and zero otherwise,
whatever the matrix held before. -/
theorem fill_identity_square [Zero α] [One α] (A : DenseMatrix α) (n : Nat)
    (h1 : Size1 A = n) (h2 : Size2 A = n) :
    ∃ M, fill_identity A = .ok M ∧ Size1 M = n ∧ Size2 M = n ∧
      ∀ i j, i < n → j < n → M.elem i j = .ok (if i = j then 1 else 0) := by
  simp only [Size1_dense, Size2_dense] at *
  have hcond : A.size1 = (DenseMatrix.IdentityMatrix A.size1 : DenseMatrix α).size1 ∧
      A.size2 = (DenseMatrix.IdentityMatrix A.size1 : DenseMatrix α).size2 := by
    constructor
    · rfl
    · show A.size2 = A.size1
      omega
  have hrun : ∃ M, fill_identity A = .ok M ∧ M.size1 = A.size1 ∧ M.size2 = A.size2 ∧
      M.data = (DenseMatrix.IdentityMatrix A.size1 : DenseMatrix α).data := by
    unfold fill_identity DenseMatrix.noaliasAssign
    rw [dif_pos hcond]
    exact ⟨_, rfl, rfl, rfl, rfl⟩
  obtain ⟨M, hM, hs1, hs2, hd⟩ := hrun
  refine ⟨M, hM, by omega, by omega, ?_⟩
  intro i j hi hj
  apply elem_of_data M i j _ (by omega) (by omega)
  have hlt : i * n + j < n * n := offset_lt hi hj
  rw [hd, hs2, h2]
  simp only [DenseMatrix.IdentityMatrix, h1]
  rw [List.getElem?_map, List.getElem?_range hlt]
  simp only [Option.map_some', offset_div hj, offset_mod hj]

/-- An instance of C10: the 2 × 2 matrix becomes the 2 × 2 identity. -/
theorem fill_identity_square_witness :
    Size1 sampleSquare = 2 ∧ Size2 sampleSquare = 2 ∧
    (fill_identity sampleSquare).map (fun m => m.data) = .ok [1, 0, 0, 1] ∧
    ∃ M, fill_identity sampleSquare = .ok M ∧ Size1 M = 2 ∧ Size2 M = 2 ∧
      ∀ i j, i < 2 → j < 2 → M.elem i j = .ok (if i = j then 1 else 0) :=
  ⟨rfl, rfl, by decide, fill_identity_square sampleSquare 2 rfl rfl⟩

end ProductClaims

end Kratos
